import Mathlib

/-!
Shallow embedding of the UUID48 repository's identifier-generation core.

The embedding covers:
* `src/PAX-Timestamp48/src/timestamp.js` — the stateful 48-bit timestamp
  generator (`UUID48Timestamp`);
* `src/PAX-Timestamp48/src/base64url.js` — the padding-free Base64URL codec;
* `src/PAX-Timestamp48/src/index.js` — the validation/format-conversion façade;
* `src/Timestamp48/gpt-5.js` — the two 128-bit UUIDv7-style generators
  (the Node variant and the web variant).

Conventions of the embedding:
* JavaScript `BigInt`/number values are `Nat` (all quantities involved are
  non-negative); bitwise operations use `Nat`'s `&&&`, `|||`, `>>>`, `<<<`.
* `Buffer`/`Uint8Array` values are `List Nat` of byte values.
* JavaScript strings are `List Nat` of their UTF-16 code-unit values
  (all characters involved are ASCII).
* A function that can `throw` returns `Except String _`; the error payloads
  are abbreviated forms of the source's messages.
* `Date.now()` readings are injected explicitly: a single reading is a `Nat`
  argument, and code that polls the clock repeatedly consumes a `List Nat`
  of successive readings.  A busy-wait that never terminates is modelled by
  returning `none` (fuel/readings exhausted).
-/

namespace UUID48

/-- The 48-bit cap `0xFFFFFFFFFFFF` from `timestamp.js` (`maxValue`). -/
def maxTimestamp : Nat := 0xFFFFFFFFFFFF

/-! ## `src/PAX-Timestamp48/src/timestamp.js` -/

/-- Embedding of `options.waitStrategy`: `"increment"` or `"wait"`. -/
inductive WaitStrategy where
  | increment
  | wait
deriving DecidableEq, Repr

/-- The mutable instance state plus configuration of a `UUID48Timestamp`
object (`this.lastSystemTime`, `this.subMillisecondCounter`, `this.maxSubMs`,
`this.waitStrategy`). -/
structure TSGen where
  lastSystemTime : Nat
  subMillisecondCounter : Nat
  maxSubMs : Nat
  waitStrategy : WaitStrategy
deriving DecidableEq, Repr

/-- Constructor of `UUID48Timestamp`: state starts at zero; `maxSubMs`
must lie in `[1, 65536]` (the `waitStrategy` enumeration check is absorbed
by the `WaitStrategy` type). -/
def TSGen.make (maxSubMs : Nat) (waitStrategy : WaitStrategy) :
    Except String TSGen :=
  if maxSubMs ≤ 0 || 65536 < maxSubMs then
    .error "maxSubMs must be between 1 and 65536"
  else
    .ok ⟨0, 0, maxSubMs, waitStrategy⟩

/-- Embedding of `UUID48Timestamp._timestampToBuffer`: validate the 48-bit limit, then
serialize big-endian into 6 bytes. -/
def timestampToBuffer (timestamp : Nat) : Except String (List Nat) :=
  if timestamp > maxTimestamp then
    .error "Timestamp exceeds 48-bit limit"
  else
    .ok [(timestamp >>> 40) &&& 0xFF,
         (timestamp >>> 32) &&& 0xFF,
         (timestamp >>> 24) &&& 0xFF,
         (timestamp >>> 16) &&& 0xFF,
         (timestamp >>> 8) &&& 0xFF,
         timestamp &&& 0xFF]

/-- The big-endian recombination used by `UUID48Timestamp.bufferToTimestamp`
(and `validateBuffer`), on a 6-byte buffer. -/
def bufferToTimestampRaw (b : List Nat) : Nat :=
  ((b.getD 0 0) <<< 40) ||| ((b.getD 1 0) <<< 32) ||| ((b.getD 2 0) <<< 24) |||
    ((b.getD 3 0) <<< 16) ||| ((b.getD 4 0) <<< 8) ||| (b.getD 5 0)

/-- Embedding of `UUID48Timestamp.validateBuffer`: 6 bytes whose recombined value fits in
48 bits (the `Buffer.isBuffer` type test is absorbed by the caller's types). -/
def validateBuffer (b : List Nat) : Bool :=
  b.length = 6 && bufferToTimestampRaw b ≤ maxTimestamp

/-- Embedding of `UUID48Timestamp.bufferToTimestamp`: validate, then recombine. -/
def bufferToTimestamp (b : List Nat) : Except String Nat :=
  if validateBuffer b then .ok (bufferToTimestampRaw b)
  else .error "Invalid timestamp buffer: must be 6 bytes"

/-- The busy-wait loop of `UUID48Timestamp._waitForNextMillisecond`:
`while (BigInt(Date.now()) === this.lastSystemTime) {}`.  Each loop-condition
check consumes one injected reading; the loop exits once a reading differs
from `last` (that reading is only used for the comparison and is discarded).
`none` models the loop spinning past all injected readings. -/
def waitLoop (last : Nat) : List Nat → Option (List Nat)
  | [] => none
  | r :: rest => if r = last then waitLoop last rest else some rest

/-- Embedding of `UUID48Timestamp.generate`, with explicit state and injected clock
readings.  The first reading of the list is this call's `Date.now()`; further
readings feed `_waitForNextMillisecond` and its recursive `generate()` call.
Returns the mutated state, the unconsumed readings, and the call's result
(`Except` for the `_timestampToBuffer` throw).  `none` models a call that
never returns (busy-wait with no advancing reading, modelled with fuel). -/
def generate : Nat → TSGen → List Nat → Option (TSGen × List Nat × Except String (List Nat))
  | 0, _, _ => none
  | _ + 1, _, [] => none
  | fuel + 1, g, systemTime :: rest =>
    if systemTime = g.lastSystemTime then
      -- _handleSameMillisecond: this.subMillisecondCounter++
      let c := g.subMillisecondCounter + 1
      if c ≥ g.maxSubMs then
        match g.waitStrategy with
        | .wait =>
          -- _waitForNextMillisecond, then `return this.generate()`
          match waitLoop g.lastSystemTime rest with
          | none => none
          | some rest' => generate fuel { g with subMillisecondCounter := c } rest'
        | .increment =>
          let incrementedTime := systemTime + 1
          some ({ g with lastSystemTime := incrementedTime, subMillisecondCounter := 0 },
                rest, timestampToBuffer incrementedTime)
      else
        some ({ g with subMillisecondCounter := c }, rest, timestampToBuffer systemTime)
    else if systemTime > g.lastSystemTime then
      -- _handleNewMillisecond
      some ({ g with lastSystemTime := systemTime, subMillisecondCounter := 0 },
            rest, timestampToBuffer systemTime)
    else
      -- _handleClockBackward
      some ({ g with lastSystemTime := g.lastSystemTime + 1, subMillisecondCounter := 0 },
            rest, timestampToBuffer (g.lastSystemTime + 1))

/-- Run a sequence of `generate()` calls on one instance.  Each call is given
its fuel and its injected clock readings.  If a call never returns (`none`),
no further call happens. -/
def runGen (g : TSGen) : List (Nat × List Nat) → List (Except String (List Nat)) × TSGen
  | [] => ([], g)
  | (fuel, rs) :: more =>
    match generate fuel g rs with
    | none => ([], g)
    | some (g', _, out) =>
      let (outs, gf) := runGen g' more
      (out :: outs, gf)

/-- The timestamps of the successfully emitted buffers of a run, decoded by
the big-endian recombination. -/
def emittedTimestamps (g : TSGen) (calls : List (Nat × List Nat)) : List Nat :=
  ((runGen g calls).1.filterMap Except.toOption).map bufferToTimestampRaw

/-! ## `src/PAX-Timestamp48/src/base64url.js` -/

/-- The standard Base64 alphabet (RFC 4648 §4) as character codes:
`A-Z`, `a-z`, `0-9`, `+`, `/`. -/
def base64Code (i : Nat) : Nat :=
  if i < 26 then 65 + i
  else if i < 52 then 97 + (i - 26)
  else if i < 62 then 48 + (i - 52)
  else if i = 62 then 43
  else 47

/-- Index of a character code in the standard Base64 alphabet. -/
def base64CodeVal (c : Nat) : Option Nat :=
  if 65 ≤ c ∧ c ≤ 90 then some (c - 65)
  else if 97 ≤ c ∧ c ≤ 122 then some (c - 97 + 26)
  else if 48 ≤ c ∧ c ≤ 57 then some (c - 48 + 52)
  else if c = 43 then some 62
  else if c = 47 then some 63
  else none

/-- Embedding of `buffer.toString("base64")`: standard Base64 encoding with `=` (code 61)
padding, three input bytes per four output characters. -/
def encodeBase64 : List Nat → List Nat
  | [] => []
  | [b0] =>
    [base64Code (b0 >>> 2), base64Code ((b0 &&& 3) <<< 4), 61, 61]
  | [b0, b1] =>
    [base64Code (b0 >>> 2), base64Code (((b0 &&& 3) <<< 4) ||| (b1 >>> 4)),
     base64Code ((b1 &&& 15) <<< 2), 61]
  | b0 :: b1 :: b2 :: rest =>
    base64Code (b0 >>> 2) :: base64Code (((b0 &&& 3) <<< 4) ||| (b1 >>> 4)) ::
      base64Code (((b1 &&& 15) <<< 2) ||| (b2 >>> 6)) :: base64Code (b2 &&& 63) ::
      encodeBase64 rest

/-- The `+` → `-` and `/` → `_` substitutions of `encodeBase64URL`. -/
def toUrlCode (c : Nat) : Nat :=
  if c = 43 then 45 else if c = 47 then 95 else c

/-- The `-` → `+` and `_` → `/` substitutions of `decodeBase64URL`. -/
def fromUrlCode (c : Nat) : Nat :=
  if c = 45 then 43 else if c = 95 then 47 else c

/-- Embedding of `encodeBase64URL`: standard Base64, substitute `+` → `-` and `/` → `_`,
strip all `=` padding (the `Buffer.isBuffer` type test is absorbed by the
argument type; a zero-length buffer encodes to the empty string). -/
def encodeBase64URL (buffer : List Nat) : List Nat :=
  ((encodeBase64 buffer).map toUrlCode).filter (· ≠ 61)

/-- Embedding of `Buffer.from(str, "base64")` on a correctly-padded Base64 string:
four characters per three output bytes, with trailing bits of a padded
final group discarded (Node's lenient decoder). -/
def decodeBase64 : List Nat → Except String (List Nat)
  | [] => .ok []
  | c1 :: c2 :: c3 :: c4 :: rest =>
    match base64CodeVal c1, base64CodeVal c2 with
    | some v1, some v2 =>
      if c3 = 61 then
        .ok [(v1 <<< 2) ||| (v2 >>> 4)]
      else
        match base64CodeVal c3 with
        | some v3 =>
          if c4 = 61 then
            .ok [(v1 <<< 2) ||| (v2 >>> 4), ((v2 &&& 15) <<< 4) ||| (v3 >>> 2)]
          else
            match base64CodeVal c4 with
            | some v4 =>
              match decodeBase64 rest with
              | .ok bs =>
                .ok ([(v1 <<< 2) ||| (v2 >>> 4), ((v2 &&& 15) <<< 4) ||| (v3 >>> 2),
                      ((v3 &&& 3) <<< 6) ||| v4] ++ bs)
              | .error e => .error e
            | none => .error "invalid base64 character"
        | none => .error "invalid base64 character"
    | _, _ => .error "invalid base64 character"
  | _ => .error "invalid base64 length"

/-- The character class `[A-Za-z0-9_-]` of `decodeBase64URL`'s validation
regular expression (`-` is code 45, `_` is code 95). -/
def isBase64URLCode (c : Nat) : Bool :=
  (65 ≤ c && c ≤ 90) || (97 ≤ c && c ≤ 122) || (48 ≤ c && c ≤ 57) ||
    c = 45 || c = 95

/-- Embedding of `decodeBase64URL`: empty string decodes to the empty buffer; otherwise
validate the character class, re-pad with `=` to a multiple of four
characters, substitute `-` → `+` and `_` → `/`, and Base64-decode. -/
def decodeBase64URL (str : List Nat) : Except String (List Nat) :=
  if str.length = 0 then .ok []
  else if !(str.all isBase64URLCode) then
    .error "Invalid Base64URL string: contains invalid characters"
  else
    decodeBase64 ((str ++ List.replicate ((4 - str.length % 4) % 4) 61).map fromUrlCode)

/-- Embedding of `isValidBase64URL`: empty string is valid; otherwise the character class
must hold (which already excludes `=`) and a test decode must succeed. -/
def isValidBase64URL (str : List Nat) : Bool :=
  if str.length = 0 then true
  else if !(str.all isBase64URLCode) then false
  else
    match decodeBase64URL str with
    | .ok _ => true
    | .error _ => false

/-- Embedding of `isValidTimestampBase64URL`: valid Base64URL of exactly 8 characters
decoding to exactly 6 bytes. -/
def isValidTimestampBase64URL (str : List Nat) : Bool :=
  if !(isValidBase64URL str) || str.length ≠ 8 then false
  else
    match decodeBase64URL str with
    | .ok decoded => decoded.length = 6
    | .error _ => false

/-- Embedding of `timestampToBase64URL`: require a 6-byte buffer, encode, and require an
8-character result. -/
def timestampToBase64URL (timestampBuffer : List Nat) : Except String (List Nat) :=
  if timestampBuffer.length ≠ 6 then
    .error "Expected 6-byte timestamp buffer"
  else
    let encoded := encodeBase64URL timestampBuffer
    if encoded.length ≠ 8 then .error "Expected 8-character Base64URL output"
    else .ok encoded

/-- Embedding of `base64URLToTimestamp`: require `isValidTimestampBase64URL`, then decode. -/
def base64URLToTimestamp (str : List Nat) : Except String (List Nat) :=
  if !(isValidTimestampBase64URL str) then
    .error "Invalid timestamp Base64URL: must be 8 characters encoding 6 bytes"
  else decodeBase64URL str

/-! ## `src/PAX-Timestamp48/src/index.js` -/

/-- A JavaScript value passed to or returned from the façade: a string
(code-unit list), a `Buffer` (byte list), or `null`/`undefined`. -/
inductive JSVal where
  | str (codes : List Nat)
  | buf (bytes : List Nat)
  | nullish
deriving DecidableEq, Repr

/-- The character class `[0-9a-fA-F]` of `validate`'s hex regular
expression. -/
def isHexDigit (c : Nat) : Bool :=
  (48 ≤ c && c ≤ 57) || (97 ≤ c && c ≤ 102) || (65 ≤ c && c ≤ 70)

/-- The `switch` statement inside `validate`'s `try` block; its `default`
branch throws the unsupported-format error. -/
def validateSwitch (timestamp : JSVal) (format : String) : Except String Bool :=
  match format with
  | "base64url" =>
    -- isValidTimestampBase64URL begins with a typeof-string test
    .ok (match timestamp with
         | .str s => isValidTimestampBase64URL s
         | _ => false)
  | "hex" =>
    -- typeof test, then /^[0-9a-fA-F]{12}$/ (the Buffer.from parse cannot fail)
    .ok (match timestamp with
         | .str s => s.length = 12 && s.all isHexDigit
         | _ => false)
  | "buffer" =>
    -- UUID48Timestamp.validateBuffer begins with a Buffer.isBuffer test
    .ok (match timestamp with
         | .buf b => validateBuffer b
         | _ => false)
  | _ => .error "Invalid format"

/-- Embedding of `validate`: `null`/`undefined` is invalid, and the surrounding
`try`/`catch` converts any thrown error — including the unknown-format
throw of the `default` branch — into `false`. -/
def validate (timestamp : JSVal) (format : String) : Bool :=
  match timestamp with
  | .nullish => false
  | _ =>
    match validateSwitch timestamp format with
    | .ok b => b
    | .error _ => false

/-- One byte as two lowercase hex digit codes (`0`–`9`, `a`–`f`). -/
def hexDigitCode (v : Nat) : Nat := if v < 10 then 48 + v else 87 + v

/-- Embedding of `buffer.toString("hex")`: lowercase hex, two digits per byte. -/
def bytesToHex (b : List Nat) : List Nat :=
  (b.map fun x => [hexDigitCode ((x >>> 4) &&& 15), hexDigitCode (x &&& 15)]).flatten

/-- Value of one hex digit code (either case). -/
def hexVal (c : Nat) : Option Nat :=
  if 48 ≤ c ∧ c ≤ 57 then some (c - 48)
  else if 97 ≤ c ∧ c ≤ 102 then some (c - 97 + 10)
  else if 65 ≤ c ∧ c ≤ 70 then some (c - 65 + 10)
  else none

/-- Embedding of `Buffer.from(str, "hex")`: two digits per byte, stopping at the first
invalid pair (Node's behavior; the façade only calls it on validated
input). -/
def hexToBytes : List Nat → List Nat
  | c1 :: c2 :: rest =>
    match hexVal c1, hexVal c2 with
    | some h, some l => (h * 16 + l) :: hexToBytes rest
    | _, _ => []
  | _ => []

/-- Embedding of `formatOutput`: dispatch on the format token; unknown tokens throw. -/
def formatOutput (buffer : List Nat) (format : String) : Except String JSVal :=
  match format with
  | "buffer" => .ok (.buf buffer)
  | "hex" => .ok (.str (bytesToHex buffer))
  | "base64url" =>
    match timestampToBase64URL buffer with
    | .ok s => .ok (.str s)
    | .error e => .error e
  | _ => .error "Unsupported format"

/-- Embedding of `convert`: validate in the source format, decode to a buffer, re-encode
with `formatOutput`. -/
def convert (timestamp : JSVal) (fromFormat toFormat : String) : Except String JSVal :=
  if !(validate timestamp fromFormat) then
    .error "Invalid timestamp for format"
  else
    let buffer : Except String (List Nat) :=
      match fromFormat with
      | "buffer" =>
        -- validate guarantees the value is a Buffer here
        match timestamp with
        | .buf b => .ok b
        | _ => .error "unreachable"
      | "hex" =>
        match timestamp with
        | .str s => .ok (hexToBytes s)
        | _ => .error "unreachable"
      | "base64url" =>
        match timestamp with
        | .str s => base64URLToTimestamp s
        | _ => .error "unreachable"
      | _ => .error "Unsupported source format"
    match buffer with
    | .ok b => formatOutput b toFormat
    | .error e => .error e

/-! ## `src/Timestamp48/gpt-5.js` (both 128-bit variants) -/

/-- The module-level `_state` of both 128-bit variants. -/
structure V7State where
  lastMs : Nat
  seq12 : Nat
deriving DecidableEq, Repr

/-- Embedding of `_packUuidV7` (identical in the Node and web variants): 48-bit big-endian
timestamp, version nibble `0x7` over the high 4 bits of the 12-bit sequence,
then 8 tail bytes with the RFC 4122 variant forced onto the first. -/
def packUuidV7 (ts48 seq12 : Nat) (randTail8 : List Nat) : List Nat :=
  [(ts48 >>> 40) &&& 0xff, (ts48 >>> 32) &&& 0xff, (ts48 >>> 24) &&& 0xff,
   (ts48 >>> 16) &&& 0xff, (ts48 >>> 8) &&& 0xff, ts48 &&& 0xff,
   0x70 ||| ((seq12 >>> 8) &&& 0x0f),
   seq12 &&& 0xff,
   ((randTail8.getD 0 0) &&& 0x3f) ||| 0x80]
  ++ randTail8.drop 1

/-- Embedding of `_waitNextMs` (Node variant): poll the clock until it strictly exceeds
`currentMs`; each poll consumes one injected reading, and the loop-breaking
reading is returned.  `none` models the clock never advancing past the
injected readings. -/
def waitNextMs (currentMs : Nat) : List Nat → Option (Nat × List Nat)
  | [] => none
  | t :: rest => if t ≤ currentMs then waitNextMs currentMs rest else some (t, rest)

/-- Embedding of `generateV7Base64Url` (Node variant), up to the Base64URL encoding:
`now` is this call's `Date.now()`, `restReadings` feeds `_waitNextMs`,
`randSeq` is the `crypto.randomInt(0, 0x1000)` draw and `randTail` the
`crypto.randomBytes(8)` draw.  Returns the new `_state`, the unconsumed
readings, and the packed 16 bytes; `none` models blocking forever in
`_waitNextMs`. -/
def generateV7Node (st : V7State) (now : Nat) (restReadings : List Nat)
    (randSeq : Nat) (randTail : List Nat) :
    Option (V7State × List Nat × List Nat) :=
  if now = st.lastMs then
    let s := (st.seq12 + 1) &&& 0x0fff
    if s = 0 then
      match waitNextMs now restReadings with
      | none => none
      | some (ts, rest') => some (⟨ts, s⟩, rest', packUuidV7 ts s randTail)
    else
      some (⟨now, s⟩, restReadings, packUuidV7 now s randTail)
  else
    some (⟨now, randSeq⟩, restReadings, packUuidV7 now randSeq randTail)

/-- Embedding of `generateV7Base64Url` (web variant), up to the Base64URL encoding:
clamps `now` to `_state.lastMs`, and on sequence wrap synthesizes
`lastMs + 1` instead of waiting (`// avoid busy-wait`).  `randSeq` is the
`_random12()` draw and `randTail` the `_randomTail8()` draw. -/
def generateV7Web (st : V7State) (now : Nat) (randSeq : Nat)
    (randTail : List Nat) : V7State × List Nat :=
  let ts0 := if now > st.lastMs then now else st.lastMs
  if ts0 = st.lastMs then
    let s := (st.seq12 + 1) &&& 0x0fff
    let ts := if s = 0 then st.lastMs + 1 else ts0
    (⟨ts, s⟩, packUuidV7 ts s randTail)
  else
    (⟨ts0, randSeq⟩, packUuidV7 ts0 randSeq randTail)

/-- The timestamp+sequence composite key of the identifier emitted with
state `st` (both variants pack exactly `lastMs` and the low 12 bits of
`seq12` of the post-call state into bytes 0–7). -/
def v7Key (st : V7State) : Nat := st.lastMs * 4096 + st.seq12 % 4096

/-- Run a sequence of web-variant calls; each call injects one clock reading
and its two random draws.  Returns the post-call states (whose fields are
the emitted timestamp and sequence). -/
def runWeb (st : V7State) : List (Nat × Nat × List Nat) → List V7State
  | [] => []
  | (now, rseq, rtail) :: more =>
    let st' := (generateV7Web st now rseq rtail).1
    st' :: runWeb st' more

/-- Run a sequence of Node-variant calls against one injected clock stream;
each call pops one reading for its `Date.now()` and may consume more in
`_waitNextMs`.  A call that blocks forever ends the run. -/
def runNode (st : V7State) (readings : List Nat) :
    List (Nat × List Nat) → List V7State
  | [] => []
  | (rseq, rtail) :: more =>
    match readings with
    | [] => []
    | now :: rest =>
      match generateV7Node st now rest rseq rtail with
      | none => []
      | some (st', rest', _) => st' :: runNode st' rest' more

/-! ## Arithmetic bridge lemmas for the bitwise operations -/

theorem and_mask3 (n : Nat) : n &&& 3 = n % 4 := by
  have h := Nat.and_pow_two_sub_one_eq_mod n 2
  norm_num at h
  exact h

theorem and_mask15 (n : Nat) : n &&& 15 = n % 16 := by
  have h := Nat.and_pow_two_sub_one_eq_mod n 4
  norm_num at h
  exact h

theorem and_mask63 (n : Nat) : n &&& 63 = n % 64 := by
  have h := Nat.and_pow_two_sub_one_eq_mod n 6
  norm_num at h
  exact h

theorem and_mask255 (n : Nat) : n &&& 255 = n % 256 := by
  have h := Nat.and_pow_two_sub_one_eq_mod n 8
  norm_num at h
  exact h

theorem and_mask4095 (n : Nat) : n &&& 4095 = n % 4096 := by
  have h := Nat.and_pow_two_sub_one_eq_mod n 12
  norm_num at h
  exact h

theorem lor_eq_add_pow (i x y : Nat) (hx : 2 ^ i ∣ x) (hy : y < 2 ^ i) :
    x ||| y = x + y := by
  obtain ⟨a, rfl⟩ := hx
  exact (Nat.mul_add_lt_is_or hy a).symm

theorem recombine6 (b0 b1 b2 b3 b4 b5 : Nat) (h1 : b1 < 256) (h2 : b2 < 256)
    (h3 : b3 < 256) (h4 : b4 < 256) (h5 : b5 < 256) :
    bufferToTimestampRaw [b0, b1, b2, b3, b4, b5] =
      b0 * 2 ^ 40 + b1 * 2 ^ 32 + b2 * 2 ^ 24 + b3 * 2 ^ 16 + b4 * 2 ^ 8 + b5 := by
  have e1 : (b0 <<< 40) ||| (b1 <<< 32) = b0 * 2 ^ 40 + b1 * 2 ^ 32 := by
    rw [Nat.shiftLeft_eq, Nat.shiftLeft_eq]
    refine lor_eq_add_pow 40 _ _ ⟨b0, by ring⟩ ?_
    calc b1 * 2 ^ 32 < 256 * 2 ^ 32 := by
          exact (Nat.mul_lt_mul_right (by positivity)).mpr h1
      _ = 2 ^ 40 := by norm_num
  have e2 : b0 * 2 ^ 40 + b1 * 2 ^ 32 ||| (b2 <<< 24) =
      b0 * 2 ^ 40 + b1 * 2 ^ 32 + b2 * 2 ^ 24 := by
    rw [Nat.shiftLeft_eq]
    refine lor_eq_add_pow 32 _ _ ⟨b0 * 2 ^ 8 + b1, by ring⟩ ?_
    calc b2 * 2 ^ 24 < 256 * 2 ^ 24 := by
          exact (Nat.mul_lt_mul_right (by positivity)).mpr h2
      _ = 2 ^ 32 := by norm_num
  have e3 : b0 * 2 ^ 40 + b1 * 2 ^ 32 + b2 * 2 ^ 24 ||| (b3 <<< 16) =
      b0 * 2 ^ 40 + b1 * 2 ^ 32 + b2 * 2 ^ 24 + b3 * 2 ^ 16 := by
    rw [Nat.shiftLeft_eq]
    refine lor_eq_add_pow 24 _ _ ⟨b0 * 2 ^ 16 + b1 * 2 ^ 8 + b2, by ring⟩ ?_
    calc b3 * 2 ^ 16 < 256 * 2 ^ 16 := by
          exact (Nat.mul_lt_mul_right (by positivity)).mpr h3
      _ = 2 ^ 24 := by norm_num
  have e4 : b0 * 2 ^ 40 + b1 * 2 ^ 32 + b2 * 2 ^ 24 + b3 * 2 ^ 16 ||| (b4 <<< 8) =
      b0 * 2 ^ 40 + b1 * 2 ^ 32 + b2 * 2 ^ 24 + b3 * 2 ^ 16 + b4 * 2 ^ 8 := by
    rw [Nat.shiftLeft_eq]
    refine lor_eq_add_pow 16 _ _ ⟨b0 * 2 ^ 24 + b1 * 2 ^ 16 + b2 * 2 ^ 8 + b3, by ring⟩ ?_
    calc b4 * 2 ^ 8 < 256 * 2 ^ 8 := by
          exact (Nat.mul_lt_mul_right (by positivity)).mpr h4
      _ = 2 ^ 16 := by norm_num
  have e5 : b0 * 2 ^ 40 + b1 * 2 ^ 32 + b2 * 2 ^ 24 + b3 * 2 ^ 16 + b4 * 2 ^ 8 ||| b5 =
      b0 * 2 ^ 40 + b1 * 2 ^ 32 + b2 * 2 ^ 24 + b3 * 2 ^ 16 + b4 * 2 ^ 8 + b5 := by
    refine lor_eq_add_pow 8 _ _
      ⟨b0 * 2 ^ 32 + b1 * 2 ^ 24 + b2 * 2 ^ 16 + b3 * 2 ^ 8 + b4, by ring⟩ ?_
    calc b5 < 256 := h5
      _ = 2 ^ 8 := by norm_num
  simp only [bufferToTimestampRaw, List.getD_cons_zero, List.getD_cons_succ]
  rw [e1, e2, e3, e4, e5]

/-- The byte list `_timestampToBuffer` produces for an in-range timestamp. -/
def tsBytes (t : Nat) : List Nat :=
  [(t >>> 40) &&& 0xFF, (t >>> 32) &&& 0xFF, (t >>> 24) &&& 0xFF,
   (t >>> 16) &&& 0xFF, (t >>> 8) &&& 0xFF, t &&& 0xFF]

theorem timestampToBuffer_eq_ok (t : Nat) (ht : t ≤ maxTimestamp) :
    timestampToBuffer t = .ok (tsBytes t) := by
  simp [timestampToBuffer, tsBytes, Nat.not_lt.mpr ht, maxTimestamp] at *
  omega

theorem tsBytes_roundtrip (t : Nat) (ht : t ≤ maxTimestamp) :
    bufferToTimestampRaw (tsBytes t) = t := by
  have hmod : ∀ k : Nat, (t >>> k) &&& 255 = t / 2 ^ k % 256 := fun k => by
    rw [Nat.shiftRight_eq_div_pow, and_mask255]
  simp only [tsBytes, hmod, and_mask255]
  rw [recombine6 _ _ _ _ _ _ (Nat.mod_lt _ (by norm_num)) (Nat.mod_lt _ (by norm_num))
    (Nat.mod_lt _ (by norm_num)) (Nat.mod_lt _ (by norm_num)) (Nat.mod_lt _ (by norm_num))]
  have ht' : t ≤ 281474976710655 := ht
  norm_num
  omega

theorem bufferToTimestampRaw_le_max (b : List Nat) (hlen : b.length = 6)
    (hb : ∀ x ∈ b, x < 256) : bufferToTimestampRaw b ≤ maxTimestamp := by
  match b, hlen with
  | [b0, b1, b2, b3, b4, b5], _ =>
    have h0 : b0 < 256 := hb b0 (by simp)
    have h1 : b1 < 256 := hb b1 (by simp)
    have h2 : b2 < 256 := hb b2 (by simp)
    have h3 : b3 < 256 := hb b3 (by simp)
    have h4 : b4 < 256 := hb b4 (by simp)
    have h5 : b5 < 256 := hb b5 (by simp)
    rw [recombine6 _ _ _ _ _ _ h1 h2 h3 h4 h5]
    have : b0 * 2 ^ 40 ≤ 255 * 2 ^ 40 := Nat.mul_le_mul_right _ (by omega)
    simp only [maxTimestamp]
    norm_num at this ⊢
    omega

/-! ## Invariants of the 48-bit generator -/

theorem generate_spec : ∀ (fuel : Nat) (g : TSGen) (rs : List Nat) (g' : TSGen)
    (rest : List Nat) (out : Except String (List Nat)),
    generate fuel g rs = some (g', rest, out) →
    g.lastSystemTime ≤ g'.lastSystemTime ∧ out = timestampToBuffer g'.lastSystemTime := by
  intro fuel
  induction fuel with
  | zero => intro g rs g' rest out h; simp [generate] at h
  | succ n ih =>
    intro g rs g' rest out h
    match rs with
    | [] => simp [generate] at h
    | now :: rest0 =>
      simp only [generate] at h
      by_cases heq : now = g.lastSystemTime
      · simp only [heq, if_true, if_pos rfl] at h
        by_cases hov : g.subMillisecondCounter + 1 ≥ g.maxSubMs
        · simp only [if_pos hov] at h
          cases hws : g.waitStrategy with
          | wait =>
            rw [hws] at h
            cases hwl : waitLoop g.lastSystemTime rest0 with
            | none => rw [hwl] at h; simp at h
            | some rest1 =>
              rw [hwl] at h
              have := ih _ _ _ _ _ h
              exact ⟨this.1, this.2⟩
          | increment =>
            rw [hws] at h
            cases h
            exact ⟨by simp [heq], by simp [heq]⟩
        · simp only [if_neg hov] at h
          cases h
          exact ⟨le_refl _, by simp [heq]⟩
      · simp only [if_neg heq] at h
        by_cases hgt : now > g.lastSystemTime
        · simp only [if_pos hgt] at h
          cases h
          exact ⟨le_of_lt hgt, rfl⟩
        · simp only [if_neg hgt] at h
          cases h
          exact ⟨Nat.le_succ _, rfl⟩

theorem generate_ok_timestamp (fuel : Nat) (g : TSGen) (rs : List Nat) (g' : TSGen)
    (rest : List Nat) (b : List Nat)
    (h : generate fuel g rs = some (g', rest, .ok b)) :
    bufferToTimestampRaw b = g'.lastSystemTime ∧
      g'.lastSystemTime ≤ maxTimestamp ∧ g.lastSystemTime ≤ g'.lastSystemTime := by
  obtain ⟨hle, hout⟩ := generate_spec fuel g rs g' rest (.ok b) h
  by_cases hmax : g'.lastSystemTime > maxTimestamp
  · rw [timestampToBuffer, if_pos hmax] at hout
    simp at hout
  · push_neg at hmax
    rw [timestampToBuffer_eq_ok _ hmax] at hout
    obtain rfl : b = tsBytes g'.lastSystemTime := by
      cases hout; rfl
    exact ⟨tsBytes_roundtrip _ hmax, hmax, hle⟩

theorem emitted_chain (calls : List (Nat × List Nat)) :
    ∀ (g : TSGen), List.Chain' (· ≤ ·) (emittedTimestamps g calls) ∧
      ∀ x ∈ emittedTimestamps g calls, g.lastSystemTime ≤ x := by
  induction calls with
  | nil => intro g; simp [emittedTimestamps, runGen]
  | cons c more ih =>
    intro g
    obtain ⟨fuel, rs⟩ := c
    cases hgen : generate fuel g rs with
    | none =>
      simp [emittedTimestamps, runGen, hgen]
    | some res =>
      obtain ⟨g', rest, out⟩ := res
      have hem : emittedTimestamps g ((fuel, rs) :: more) =
          (match out with
           | .ok b => [bufferToTimestampRaw b]
           | .error _ => []) ++ emittedTimestamps g' more := by
        simp only [emittedTimestamps, runGen, hgen]
        cases out <;> simp [List.filterMap_cons, Except.toOption]
      have hle := (generate_spec fuel g rs g' rest out hgen).1
      cases out with
      | error e =>
        simp only [hem, List.nil_append]
        refine ⟨(ih g').1, fun x hx => le_trans hle ((ih g').2 x hx)⟩
      | ok b =>
        obtain ⟨hraw, _, _⟩ := generate_ok_timestamp fuel g rs g' rest b hgen
        simp only [hem, List.singleton_append]
        constructor
        · rw [List.chain'_cons']
          refine ⟨fun y hy => ?_, (ih g').1⟩
          have hymem : y ∈ emittedTimestamps g' more := List.mem_of_mem_head? hy
          rw [hraw]
          exact (ih g').2 y hymem
        · intro x hx
          rcases List.mem_cons.mp hx with rfl | hx'
          · rw [hraw]; exact hle
          · exact le_trans hle ((ih g').2 x hx')

/-! ## Invariants of the 128-bit generators -/

theorem v7Key_web_le (st : V7State) (now rseq : Nat) (rtail : List Nat) :
    v7Key st ≤ v7Key (generateV7Web st now rseq rtail).1 := by
  have h1 : st.seq12 % 4096 < 4096 := Nat.mod_lt _ (by norm_num)
  by_cases hgt : now > st.lastMs
  · have hne : ¬ (now = st.lastMs) := by omega
    have hres : (generateV7Web st now rseq rtail).1 = ⟨now, rseq⟩ := by
      simp [generateV7Web, hgt, hne]
    rw [hres]
    simp only [v7Key]
    omega
  · by_cases hz : (st.seq12 + 1) &&& 0x0fff = 0
    · have hres : (generateV7Web st now rseq rtail).1 = ⟨st.lastMs + 1, 0⟩ := by
        simp [generateV7Web, hgt, hz]
      rw [hres]
      simp only [v7Key]
      omega
    · have hres : (generateV7Web st now rseq rtail).1 =
          ⟨st.lastMs, (st.seq12 + 1) &&& 0x0fff⟩ := by
        simp [generateV7Web, hgt, hz]
      rw [hres]
      simp only [v7Key, and_mask4095]
      rw [and_mask4095] at hz
      have h2 : (st.seq12 + 1) % 4096 < 4096 := Nat.mod_lt _ (by norm_num)
      omega

theorem runWeb_chain (calls : List (Nat × Nat × List Nat)) : ∀ (st : V7State),
    List.Chain' (· ≤ ·) (v7Key st :: (runWeb st calls).map v7Key) := by
  induction calls with
  | nil => intro st; simp [runWeb]
  | cons c more ih =>
    intro st
    obtain ⟨now, rseq, rtail⟩ := c
    simp only [runWeb, List.map_cons]
    exact List.Chain'.cons (v7Key_web_le st now rseq rtail)
      (ih (generateV7Web st now rseq rtail).1)

theorem waitNextMs_spec : ∀ (l : List Nat) (c t : Nat) (rest : List Nat),
    l.Sorted (· ≤ ·) → waitNextMs c l = some (t, rest) →
    c < t ∧ rest.Sorted (· ≤ ·) ∧ ∀ r ∈ rest, t ≤ r := by
  intro l
  induction l with
  | nil => intro c t rest _ h; simp [waitNextMs] at h
  | cons r tl ih =>
    intro c t rest hsort h
    rw [List.sorted_cons] at hsort
    simp only [waitNextMs] at h
    by_cases hle : r ≤ c
    · rw [if_pos hle] at h
      exact ih c t rest hsort.2 h
    · rw [if_neg hle] at h
      cases h
      exact ⟨by omega, hsort.2, hsort.1⟩

theorem v7Key_node_le (st : V7State) (now : Nat) (rest : List Nat) (rseq : Nat)
    (rtail : List Nat) (st' : V7State) (rest' : List Nat) (out : List Nat)
    (hnow : st.lastMs ≤ now) (hsort : rest.Sorted (· ≤ ·))
    (hrest : ∀ r ∈ rest, now ≤ r)
    (h : generateV7Node st now rest rseq rtail = some (st', rest', out)) :
    v7Key st ≤ v7Key st' ∧ rest'.Sorted (· ≤ ·) ∧ ∀ r ∈ rest', st'.lastMs ≤ r := by
  have h1 : st.seq12 % 4096 < 4096 := Nat.mod_lt _ (by norm_num)
  simp only [generateV7Node, and_mask4095] at h
  by_cases heq : now = st.lastMs
  · rw [if_pos heq] at h
    by_cases hz : (st.seq12 + 1) % 4096 = 0
    · rw [if_pos hz] at h
      cases hwl : waitNextMs now rest with
      | none => rw [hwl] at h; simp at h
      | some res =>
        obtain ⟨t, rest1⟩ := res
        rw [hwl] at h
        simp only [Option.some.injEq, Prod.mk.injEq] at h
        obtain ⟨hst, hrest1, hout⟩ := h
        subst hst hrest1
        obtain ⟨hlt, hsort1, hge⟩ := waitNextMs_spec rest now t rest1 hsort hwl
        refine ⟨?_, hsort1, hge⟩
        simp only [v7Key, hz]
        omega
    · rw [if_neg hz] at h
      simp only [Option.some.injEq, Prod.mk.injEq] at h
      obtain ⟨hst, hrest1, hout⟩ := h
      subst hst hrest1
      refine ⟨?_, hsort, fun r hr => hrest r hr⟩
      simp only [v7Key, heq]
      have h2 : (st.seq12 + 1) % 4096 < 4096 := Nat.mod_lt _ (by norm_num)
      omega
  · rw [if_neg heq] at h
    simp only [Option.some.injEq, Prod.mk.injEq] at h
    obtain ⟨hst, hrest1, hout⟩ := h
    subst hst hrest1
    have hgt : st.lastMs < now := by omega
    refine ⟨?_, hsort, hrest⟩
    simp only [v7Key]
    omega

theorem runNode_chain (calls : List (Nat × List Nat)) :
    ∀ (st : V7State) (readings : List Nat), readings.Sorted (· ≤ ·) →
    (∀ r ∈ readings, st.lastMs ≤ r) →
    List.Chain' (· ≤ ·) (v7Key st :: (runNode st readings calls).map v7Key) := by
  induction calls with
  | nil => intro st readings _ _; simp [runNode]
  | cons c more ih =>
    intro st readings hsort hge
    obtain ⟨rseq, rtail⟩ := c
    cases readings with
    | nil => simp [runNode]
    | cons now rest =>
      rw [List.sorted_cons] at hsort
      cases hgen : generateV7Node st now rest rseq rtail with
      | none => simp [runNode, hgen]
      | some res =>
        obtain ⟨st', rest', out⟩ := res
        have hnow : st.lastMs ≤ now := hge now (by simp)
        obtain ⟨hkey, hsort', hge'⟩ :=
          v7Key_node_le st now rest rseq rtail st' rest' out hnow hsort.2 hsort.1 hgen
        simp only [runNode, hgen, List.map_cons]
        exact List.Chain'.cons hkey (ih st' rest' hsort' hge')

/-! ## Claim C1 — monotonicity -/

/-- Claim C1 (amended).  Interpreting each output's timestamp(+counter) as a
composite key, the emitted sequence is non-decreasing for (1) the 48-bit
`UUID48Timestamp` generator under arbitrary injected clock readings
(jitter and backward jumps included, both overflow strategies, across
error-returning and non-returning calls), and (2) the web 128-bit variant
under arbitrary injected clock readings; (3) the Node 128-bit variant
guarantees it only when the injected clock stream never decreases and never
starts below the instance's `lastMs` — with a backward jump it re-emits the
backward reading (see the counterexample). -/
theorem claim1_monotonic_amended :
    (∀ (g : TSGen) (calls : List (Nat × List Nat)),
       List.Chain' (· ≤ ·) (emittedTimestamps g calls)) ∧
    (∀ (st : V7State) (calls : List (Nat × Nat × List Nat)),
       List.Chain' (· ≤ ·) ((runWeb st calls).map v7Key)) ∧
    (∀ (st : V7State) (readings : List Nat) (calls : List (Nat × List Nat)),
       readings.Sorted (· ≤ ·) → (∀ r ∈ readings, st.lastMs ≤ r) →
       List.Chain' (· ≤ ·) ((runNode st readings calls).map v7Key)) := by
  refine ⟨fun g calls => (emitted_chain calls g).1, fun st calls => ?_,
    fun st readings calls hs hg => ?_⟩
  · exact (runWeb_chain calls st).tail
  · exact (runNode_chain calls st readings hs hg).tail

/-- Claim C1 counterexample: on the Node 128-bit variant, a backward clock jump
(reading 100 then 50) makes the second emitted composite key smaller than
the first, so the emitted sequence of that generator is not non-decreasing
under arbitrary wall-clock readings. -/
theorem claim1_counterexample :
    ¬ List.Chain' (· ≤ ·)
      ((runNode ⟨0, 0⟩ [100, 50]
        [(0, [0, 0, 0, 0, 0, 0, 0, 0]), (0, [0, 0, 0, 0, 0, 0, 0, 0])]).map v7Key) := by
  intro hch
  have h : (runNode (⟨0, 0⟩ : V7State) [100, 50]
      [(0, [0, 0, 0, 0, 0, 0, 0, 0]), (0, [0, 0, 0, 0, 0, 0, 0, 0])]).map v7Key =
      [409600, 204800] := by decide
  rw [h, List.chain'_cons] at hch
  omega

/-- Claim C1 witness: the amended theorem applied at concrete runs of all three
generators, with the Node variant's clock-stream hypotheses discharged. -/
theorem claim1_witness :
    List.Chain' (· ≤ ·)
      (emittedTimestamps ⟨0, 0, 4096, .increment⟩ [(1, [5]), (1, [5]), (1, [3])]) ∧
    List.Chain' (· ≤ ·)
      ((runWeb ⟨0, 0⟩ [(7, 0, [0, 0, 0, 0, 0, 0, 0, 0])]).map v7Key) ∧
    List.Sorted (· ≤ ·) [10, 20] ∧ (∀ r ∈ [10, 20], (⟨0, 0⟩ : V7State).lastMs ≤ r) ∧
    List.Chain' (· ≤ ·)
      ((runNode ⟨0, 0⟩ [10, 20] [(0, [0, 0, 0, 0, 0, 0, 0, 0])]).map v7Key) :=
  ⟨claim1_monotonic_amended.1 ⟨0, 0, 4096, .increment⟩ [(1, [5]), (1, [5]), (1, [3])],
   claim1_monotonic_amended.2.1 ⟨0, 0⟩ [(7, 0, [0, 0, 0, 0, 0, 0, 0, 0])],
   by decide, by decide,
   claim1_monotonic_amended.2.2 ⟨0, 0⟩ [10, 20] [(0, [0, 0, 0, 0, 0, 0, 0, 0])]
     (by decide) (by decide)⟩

/-! ## Claim C2 — overflow boundary -/

theorem filterMap_replicate_some {α β : Type} (f : α → Option β) (x : α) (y : β)
    (hf : f x = some y) (n : Nat) :
    (List.replicate n x).filterMap f = List.replicate n y := by
  induction n with
  | zero => simp
  | succ k ih => simp [List.replicate_succ, List.filterMap_cons, hf, ih]

theorem generate_one_sameMs (m c N : Nat) :
    generate 1 ⟨m, c, N, .increment⟩ [m] =
      if c + 1 ≥ N then
        some (⟨m + 1, 0, N, .increment⟩, [], timestampToBuffer (m + 1))
      else
        some (⟨m, c + 1, N, .increment⟩, [], timestampToBuffer m) := by
  by_cases hov : c + 1 ≥ N
  · simp [generate, hov]
  · simp [generate, hov]

theorem sameMs_overflow_run : ∀ (k c N m : Nat), c + k = N → 1 ≤ k →
    runGen ⟨m, c, N, .increment⟩ (List.replicate k (1, [m])) =
      (List.replicate (k - 1) (timestampToBuffer m) ++ [timestampToBuffer (m + 1)],
       ⟨m + 1, 0, N, .increment⟩) := by
  intro k
  induction k with
  | zero => intro c N m _ hk; omega
  | succ j ih =>
    intro c N m hck hk
    rw [List.replicate_succ]
    by_cases hj : j = 0
    · subst hj
      have hov : c + 1 ≥ N := by omega
      simp [runGen, generate_one_sameMs, hov]
    · have hov : ¬ (c + 1 ≥ N) := by omega
      have hrec := ih (c + 1) N m (by omega) (by omega)
      simp only [runGen, generate_one_sameMs, if_neg hov]
      rw [hrec]
      have hrep : List.replicate j (timestampToBuffer m) =
          timestampToBuffer m :: List.replicate (j - 1) (timestampToBuffer m) := by
        cases j with
        | zero => omega
        | succ i => simp [List.replicate_succ]
      simp [hrep]

/-- Claim C2 (confirmed).  With `maxSubMs = N` and the `"increment"`
(AdvanceClock) overflow strategy, if every call reads the same millisecond
`m` starting from a fresh millisecond (`lastSystemTime < m`), then the first
`N` calls emit timestamp `m` and the `(N+1)`-th call emits `m + 1` with the
sub-millisecond counter reset to 0. -/
theorem claim2_overflow_boundary (l0 c0 N m : Nat) (hfresh : l0 < m) (hN : 1 ≤ N)
    (hmax : m + 1 ≤ maxTimestamp) :
    emittedTimestamps ⟨l0, c0, N, .increment⟩ (List.replicate (N + 1) (1, [m])) =
      List.replicate N m ++ [m + 1] ∧
    (runGen ⟨l0, c0, N, .increment⟩ (List.replicate (N + 1) (1, [m]))).2 =
      ⟨m + 1, 0, N, .increment⟩ := by
  have hne : ¬ (m = l0) := by omega
  have hfirst : generate 1 (⟨l0, c0, N, .increment⟩ : TSGen) [m] =
      some (⟨m, 0, N, .increment⟩, [], timestampToBuffer m) := by
    simp [generate, hne, hfresh]
  have hrun := sameMs_overflow_run N 0 N m (by omega) hN
  have hrg : runGen ⟨l0, c0, N, .increment⟩ (List.replicate (N + 1) (1, [m])) =
      (timestampToBuffer m ::
        (List.replicate (N - 1) (timestampToBuffer m) ++ [timestampToBuffer (m + 1)]),
       ⟨m + 1, 0, N, .increment⟩) := by
    rw [List.replicate_succ]
    simp only [runGen, hfirst]
    rw [hrun]
  have hm : m ≤ maxTimestamp := by omega
  have hokm : timestampToBuffer m = .ok (tsBytes m) := timestampToBuffer_eq_ok m hm
  have hokm1 : timestampToBuffer (m + 1) = .ok (tsBytes (m + 1)) :=
    timestampToBuffer_eq_ok (m + 1) hmax
  constructor
  · simp only [emittedTimestamps, hrg]
    rw [hokm, hokm1]
    have hrep : List.replicate N m = m :: List.replicate (N - 1) m := by
      cases N with
      | zero => omega
      | succ i => simp [List.replicate_succ]
    simp [Except.toOption, List.filterMap_cons, List.filterMap_append, hrep,
      filterMap_replicate_some Except.toOption (Except.ok (tsBytes m)) (tsBytes m) rfl,
      tsBytes_roundtrip m hm, tsBytes_roundtrip (m + 1) hmax]
  · rw [hrg]

/-- Claim C2 witness: the theorem at `N = 3`, `m = 7`, starting from the fresh
state `⟨0, 0, 3, increment⟩`: three calls emit 7, the fourth emits 8 with the
counter reset to 0. -/
theorem claim2_witness :
    emittedTimestamps ⟨0, 0, 3, .increment⟩ (List.replicate 4 (1, [7])) =
      List.replicate 3 7 ++ [8] ∧
    (runGen ⟨0, 0, 3, .increment⟩ (List.replicate 4 (1, [7]))).2 =
      ⟨8, 0, 3, .increment⟩ :=
  claim2_overflow_boundary 0 0 3 7 (by decide) (by decide) (by decide)

/-! ## Claim C3 — backward clock handling -/

/-- Claim C3 (amended).  On a clock reading strictly below the last used
millisecond: (1) the 48-bit `UUID48Timestamp` generator behaves exactly as
claimed — it sets `lastSystemTime := lastSystemTime + 1`, resets the counter
to 0, and emits the encoding of `lastSystemTime + 1`; (2) the web 128-bit
variant never lets `lastMs` decrease (it clamps to `lastMs` and increments
its sequence instead of resetting it); (3) the Node 128-bit variant simply
adopts the backward reading (no protection). -/
theorem claim3_backward_amended :
    (∀ (fuel : Nat) (g : TSGen) (now : Nat) (rest : List Nat),
       now < g.lastSystemTime →
       generate (fuel + 1) g (now :: rest) =
         some ({ g with lastSystemTime := g.lastSystemTime + 1,
                        subMillisecondCounter := 0 },
               rest, timestampToBuffer (g.lastSystemTime + 1))) ∧
    (∀ (st : V7State) (now rseq : Nat) (rtail : List Nat),
       st.lastMs ≤ (generateV7Web st now rseq rtail).1.lastMs) ∧
    (∀ (st : V7State) (now : Nat) (rs : List Nat) (rseq : Nat) (rtail : List Nat),
       now < st.lastMs →
       generateV7Node st now rs rseq rtail =
         some (⟨now, rseq⟩, rs, packUuidV7 now rseq rtail)) := by
  refine ⟨fun fuel g now rest hlt => ?_, fun st now rseq rtail => ?_,
    fun st now rs rseq rtail hlt => ?_⟩
  · have hne : ¬ (now = g.lastSystemTime) := by omega
    have hngt : ¬ (now > g.lastSystemTime) := by omega
    simp [generate, hne, hngt]
  · by_cases hgt : now > st.lastMs
    · have hne : ¬ (now = st.lastMs) := by omega
      have hres : (generateV7Web st now rseq rtail).1 = ⟨now, rseq⟩ := by
        simp [generateV7Web, hgt, hne]
      rw [hres]
      exact le_of_lt hgt
    · by_cases hz : (st.seq12 + 1) &&& 0x0fff = 0
      · have hres : (generateV7Web st now rseq rtail).1 = ⟨st.lastMs + 1, 0⟩ := by
          simp [generateV7Web, hgt, hz]
        rw [hres]
        exact Nat.le_succ _
      · have hres : (generateV7Web st now rseq rtail).1 =
            ⟨st.lastMs, (st.seq12 + 1) &&& 0x0fff⟩ := by
          simp [generateV7Web, hgt, hz]
        rw [hres]
  · have hne : ¬ (now = st.lastMs) := by omega
    simp [generateV7Node, hne]

/-- Claim C3 counterexample: at state `lastMs = 100` and backward reading 50,
the Node 128-bit variant emits timestamp 50 < 100 (it neither bumps
`lastTimeMs` nor avoids emitting below the previous output), and the web
variant emits `lastMs = 100` with its sequence incremented from 5 to 6 —
not `lastTimeMs + 1` and not a reset-to-0 counter. -/
theorem claim3_counterexample :
    (generateV7Node ⟨100, 7⟩ 50 [] 9 [0, 0, 0, 0, 0, 0, 0, 0]).map
        (fun r => bufferToTimestampRaw (r.2.2.take 6)) = some 50 ∧
    50 < 100 ∧
    (generateV7Web ⟨100, 5⟩ 50 9 [0, 0, 0, 0, 0, 0, 0, 0]).1 = ⟨100, 6⟩ := by
  refine ⟨by decide, by omega, by decide⟩

/-- Claim C3 witness: the amended theorem at a concrete backward jump
(`lastSystemTime = 100`, reading 50) for all three generators. -/
theorem claim3_witness :
    (50 < 100) ∧
    generate 1 ⟨100, 5, 4096, .increment⟩ [50] =
      some (⟨101, 0, 4096, .increment⟩, [], timestampToBuffer 101) ∧
    (⟨100, 5⟩ : V7State).lastMs ≤ (generateV7Web ⟨100, 5⟩ 50 9 [0,0,0,0,0,0,0,0]).1.lastMs ∧
    generateV7Node ⟨100, 7⟩ 50 [] 9 [0,0,0,0,0,0,0,0] =
      some (⟨50, 9⟩, [], packUuidV7 50 9 [0,0,0,0,0,0,0,0]) :=
  ⟨by omega,
   claim3_backward_amended.1 0 ⟨100, 5, 4096, .increment⟩ 50 [] (by decide),
   claim3_backward_amended.2.1 ⟨100, 5⟩ 50 9 [0,0,0,0,0,0,0,0],
   claim3_backward_amended.2.2 ⟨100, 7⟩ 50 [] 9 [0,0,0,0,0,0,0,0] (by decide)⟩

/-! ## Claim C4 — 48-bit range rejection -/

/-- Claim C4 (confirmed).  (1) `_timestampToBuffer` fails with the 48-bit-limit
error on any timestamp above `2^48 − 1` and produces no buffer; (2) a
`generate()` call whose clock reading exceeds `2^48 − 1` (and advances the
clock) returns that error and emits nothing; (3) every successfully emitted
buffer decodes to a value `≤ 2^48 − 1` — nothing is silently truncated. -/
theorem claim4_range_rejection :
    (∀ t : Nat, t > maxTimestamp →
       timestampToBuffer t = .error "Timestamp exceeds 48-bit limit") ∧
    (∀ (fuel : Nat) (g : TSGen) (now : Nat) (rest : List Nat),
       maxTimestamp < now → g.lastSystemTime < now →
       generate (fuel + 1) g (now :: rest) =
         some ({ g with lastSystemTime := now, subMillisecondCounter := 0 }, rest,
               .error "Timestamp exceeds 48-bit limit")) ∧
    (∀ (fuel : Nat) (g : TSGen) (rs : List Nat) (g' : TSGen) (rest : List Nat)
       (b : List Nat), generate fuel g rs = some (g', rest, .ok b) →
       bufferToTimestampRaw b ≤ maxTimestamp) := by
  refine ⟨fun t ht => by simp [timestampToBuffer, ht],
    fun fuel g now rest hmax hfresh => ?_,
    fun fuel g rs g' rest b h => ?_⟩
  · have hne : ¬ (now = g.lastSystemTime) := by omega
    simp [generate, hne, hfresh, timestampToBuffer, hmax]
  · obtain ⟨hraw, hle, _⟩ := generate_ok_timestamp fuel g rs g' rest b h
    rw [hraw]
    exact hle

/-- Claim C4 witness: the theorem at the out-of-range reading `2^48` on a fresh
generator, and at an in-range successful call. -/
theorem claim4_witness :
    timestampToBuffer 281474976710656 = .error "Timestamp exceeds 48-bit limit" ∧
    generate 1 ⟨0, 0, 4096, .increment⟩ [281474976710656] =
      some (⟨281474976710656, 0, 4096, .increment⟩, [],
            .error "Timestamp exceeds 48-bit limit") ∧
    bufferToTimestampRaw [0, 0, 0, 0, 0, 9] ≤ maxTimestamp :=
  ⟨claim4_range_rejection.1 281474976710656 (by decide),
   claim4_range_rejection.2.1 0 ⟨0, 0, 4096, .increment⟩ 281474976710656 []
     (by decide) (by decide),
   claim4_range_rejection.2.2 1 ⟨0, 0, 4096, .increment⟩ [9]
     ⟨9, 0, 4096, .increment⟩ [] [0, 0, 0, 0, 0, 9] rfl⟩

/-! ## Claim C6 — 128-bit sequence overflow -/

theorem waitNextMs_none (c : Nat) : ∀ (l : List Nat), (∀ r ∈ l, r ≤ c) →
    waitNextMs c l = none := by
  intro l
  induction l with
  | nil => intro _; rfl
  | cons r tl ih =>
    intro h
    have hr : r ≤ c := h r (by simp)
    simp only [waitNextMs, if_pos hr]
    exact ih fun x hx => h x (by simp [hx])

/-- Claim C6 (amended).  On a 12-bit sequence wrap within the same millisecond:
(1) the web 128-bit variant synthesizes `ts = lastMs + 1` without blocking
(its step function consumes no further clock readings at all); (2) the Node
128-bit variant instead busy-polls `Date.now()` via `_waitNextMs` and blocks
for as long as the clock has not strictly advanced past the current
millisecond. -/
theorem claim6_overflow_amended :
    (∀ (st : V7State) (now rseq : Nat) (rtail : List Nat),
       now ≤ st.lastMs → (st.seq12 + 1) &&& 0x0fff = 0 →
       generateV7Web st now rseq rtail =
         (⟨st.lastMs + 1, 0⟩, packUuidV7 (st.lastMs + 1) 0 rtail)) ∧
    (∀ (st : V7State) (now : Nat) (rs : List Nat) (rseq : Nat) (rtail : List Nat),
       now = st.lastMs → (st.seq12 + 1) &&& 0x0fff = 0 → (∀ r ∈ rs, r ≤ now) →
       generateV7Node st now rs rseq rtail = none) := by
  refine ⟨fun st now rseq rtail hle hz => ?_, fun st now rs rseq rtail heq hz hrs => ?_⟩
  · have hngt : ¬ (now > st.lastMs) := by omega
    simp [generateV7Web, hngt, hz]
  · subst heq
    simp [generateV7Node, hz, waitNextMs_none st.lastMs rs hrs]

/-- Claim C6 counterexample: at `lastMs = 100`, `seq12 = 4095` and reading 100
(sequence wraps to 0), the Node 128-bit variant does not synthesize
`lastMs + 1 = 101`: with no advancing reading it blocks (no output at all),
and with readings `[100, 100, 102]` it busy-polls the wall clock and emits
the polled value 102. -/
theorem claim6_counterexample :
    generateV7Node ⟨100, 4095⟩ 100 [] 0 [0, 0, 0, 0, 0, 0, 0, 0] = none ∧
    (generateV7Node ⟨100, 4095⟩ 100 [100, 100, 102] 0 [0, 0, 0, 0, 0, 0, 0, 0]).map
      (fun r => r.1.lastMs) = some 102 := by
  refine ⟨by decide, by decide⟩

/-- Claim C6 witness: the amended theorem at `lastMs = 100`, `seq12 = 4095`:
the web variant emits 101 without consuming readings; the Node variant
blocks while the injected readings stay at 100. -/
theorem claim6_witness :
    (100 ≤ 100) ∧ ((4095 + 1) &&& 0x0fff = 0) ∧
    generateV7Web ⟨100, 4095⟩ 100 7 [0,0,0,0,0,0,0,0] =
      (⟨101, 0⟩, packUuidV7 101 0 [0,0,0,0,0,0,0,0]) ∧
    generateV7Node ⟨100, 4095⟩ 100 [100, 100] 7 [0,0,0,0,0,0,0,0] = none :=
  ⟨by omega, by decide,
   claim6_overflow_amended.1 ⟨100, 4095⟩ 100 7 [0,0,0,0,0,0,0,0] (by decide) (by decide),
   claim6_overflow_amended.2 ⟨100, 4095⟩ 100 [100, 100] 7 [0,0,0,0,0,0,0,0]
     rfl (by decide) (by decide)⟩

/-! ## Claim C7 — counter reset condition -/

/-- Claim C7 (amended).  For a single `generate()` call under the `"increment"`
strategy, the post-call sub-millisecond counter is zero if and only if the
clock strictly advanced past `lastSystemTime`, **or** the clock moved
backward, **or** the incremented counter reached `maxSubMs` — the claim's
"exactly when the clock strictly advances" misses the last two cases. -/
theorem claim7_counter_reset_amended (g : TSGen) (now : Nat) (rest : List Nat)
    (hstrat : g.waitStrategy = .increment) :
    ∃ g' out, generate 1 g (now :: rest) = some (g', rest, out) ∧
      (g'.subMillisecondCounter = 0 ↔
        (g.lastSystemTime < now ∨ now < g.lastSystemTime ∨
          g.maxSubMs ≤ g.subMillisecondCounter + 1)) := by
  obtain ⟨gl, gc, gm, gw⟩ := g
  simp only at hstrat
  subst hstrat
  by_cases heq : now = gl
  · by_cases hov : gc + 1 ≥ gm
    · refine ⟨⟨now + 1, 0, gm, .increment⟩, timestampToBuffer (now + 1), ?_, ?_⟩
      · simp [generate, heq, hov]
      · exact iff_of_true rfl (Or.inr (Or.inr hov))
    · refine ⟨⟨gl, gc + 1, gm, .increment⟩, timestampToBuffer now, ?_, ?_⟩
      · simp [generate, heq, hov]
      · exact iff_of_false (show ¬ (gc + 1 = 0) by omega)
          (show ¬ (gl < now ∨ now < gl ∨ gm ≤ gc + 1) by omega)
  · by_cases hgt : now > gl
    · refine ⟨⟨now, 0, gm, .increment⟩, timestampToBuffer now, ?_, ?_⟩
      · simp [generate, heq, hgt]
      · exact iff_of_true rfl (Or.inl hgt)
    · refine ⟨⟨gl + 1, 0, gm, .increment⟩, timestampToBuffer (gl + 1), ?_, ?_⟩
      · simp [generate, heq, hgt]
      · exact iff_of_true rfl (Or.inr (Or.inl (show now < gl by omega)))

/-- Claim C7 counterexample: at `lastSystemTime = 100`, counter 5, and the
backward reading 50 — a call in which the clock does **not** strictly
advance — the counter is nevertheless reset to 0. -/
theorem claim7_counterexample :
    (generate 1 ⟨100, 5, 4096, .increment⟩ [50]).map (·.1.subMillisecondCounter) =
      some 0 ∧ ¬ (100 < 50) := by
  refine ⟨by decide, by omega⟩

/-- Claim C7 witness: the amended theorem at a same-millisecond,
non-overflowing call (counter stays non-zero) on a concrete state. -/
theorem claim7_witness :
    ((⟨100, 1, 4096, .increment⟩ : TSGen).waitStrategy = .increment) ∧
    ∃ g' out, generate 1 ⟨100, 1, 4096, .increment⟩ (100 :: []) = some (g', [], out) ∧
      (g'.subMillisecondCounter = 0 ↔
        ((⟨100, 1, 4096, .increment⟩ : TSGen).lastSystemTime < 100 ∨
          100 < (⟨100, 1, 4096, .increment⟩ : TSGen).lastSystemTime ∨
          (⟨100, 1, 4096, .increment⟩ : TSGen).maxSubMs ≤
            (⟨100, 1, 4096, .increment⟩ : TSGen).subMillisecondCounter + 1)) :=
  ⟨rfl, claim7_counter_reset_amended ⟨100, 1, 4096, .increment⟩ 100 [] rfl⟩

/-! ## Claim C9 — version and variant bits -/

theorem packUuidV7_tags (ts48 seq12 : Nat) (rtail : List Nat) :
    ((packUuidV7 ts48 seq12 rtail).getD 6 0) >>> 4 = 7 ∧
    ((packUuidV7 ts48 seq12 rtail).getD 8 0) >>> 6 = 2 := by
  have h6 : (packUuidV7 ts48 seq12 rtail).getD 6 0 =
      0x70 ||| ((seq12 >>> 8) &&& 0x0f) := by
    simp [packUuidV7]
  have h8 : (packUuidV7 ts48 seq12 rtail).getD 8 0 =
      ((rtail.getD 0 0) &&& 0x3f) ||| 0x80 := by
    simp [packUuidV7]
  have hv : ∀ x < 16, (0x70 ||| x) >>> 4 = 7 := by decide
  have hw : ∀ x < 64, (x ||| 0x80) >>> 6 = 2 := by decide
  constructor
  · rw [h6]
    refine hv _ ?_
    rw [and_mask15]
    exact Nat.mod_lt _ (by norm_num)
  · rw [h8]
    refine hw _ ?_
    rw [and_mask63]
    exact Nat.mod_lt _ (by norm_num)

/-- Claim C9 (confirmed).  Every 16-byte value emitted by either 128-bit
generator carries version nibble `0111` (top nibble of byte 6 is 7) and
RFC 4122 variant bits `10` (top two bits of byte 8 are `0b10`), for all
states, clock readings, sequence values and random draws. -/
theorem claim9_version_variant :
    (∀ (st : V7State) (now : Nat) (rs : List Nat) (rseq : Nat) (rtail : List Nat)
       (st' : V7State) (rest' : List Nat) (bytes : List Nat),
       generateV7Node st now rs rseq rtail = some (st', rest', bytes) →
       (bytes.getD 6 0) >>> 4 = 7 ∧ (bytes.getD 8 0) >>> 6 = 2) ∧
    (∀ (st : V7State) (now rseq : Nat) (rtail : List Nat),
       (((generateV7Web st now rseq rtail).2).getD 6 0) >>> 4 = 7 ∧
       (((generateV7Web st now rseq rtail).2).getD 8 0) >>> 6 = 2) := by
  constructor
  · intro st now rs rseq rtail st' rest' bytes h
    simp only [generateV7Node] at h
    by_cases heq : now = st.lastMs
    · rw [if_pos heq] at h
      by_cases hz : (st.seq12 + 1) &&& 0x0fff = 0
      · rw [if_pos hz] at h
        cases hwl : waitNextMs now rs with
        | none => rw [hwl] at h; simp at h
        | some res =>
          obtain ⟨t, rest1⟩ := res
          rw [hwl] at h
          simp only [Option.some.injEq, Prod.mk.injEq] at h
          obtain ⟨_, _, hout⟩ := h
          rw [← hout]
          exact packUuidV7_tags _ _ _
      · rw [if_neg hz] at h
        simp only [Option.some.injEq, Prod.mk.injEq] at h
        obtain ⟨_, _, hout⟩ := h
        rw [← hout]
        exact packUuidV7_tags _ _ _
    · rw [if_neg heq] at h
      simp only [Option.some.injEq, Prod.mk.injEq] at h
      obtain ⟨_, _, hout⟩ := h
      rw [← hout]
      exact packUuidV7_tags _ _ _
  · intro st now rseq rtail
    by_cases hgt : now > st.lastMs
    · have hne : ¬ (now = st.lastMs) := by omega
      have hres : (generateV7Web st now rseq rtail).2 = packUuidV7 now rseq rtail := by
        simp [generateV7Web, hgt, hne]
      rw [hres]
      exact packUuidV7_tags _ _ _
    · by_cases hz : (st.seq12 + 1) &&& 0x0fff = 0
      · have hres : (generateV7Web st now rseq rtail).2 =
            packUuidV7 (st.lastMs + 1) 0 rtail := by
          simp [generateV7Web, hgt, hz]
        rw [hres]
        exact packUuidV7_tags _ _ _
      · have hres : (generateV7Web st now rseq rtail).2 =
            packUuidV7 st.lastMs ((st.seq12 + 1) &&& 0x0fff) rtail := by
          simp [generateV7Web, hgt, hz]
        rw [hres]
        exact packUuidV7_tags _ _ _

/-- Claim C9 witness: the theorem at one concrete Node-variant call and one
concrete web-variant call. -/
theorem claim9_witness :
    ((packUuidV7 5 3 [9, 0, 0, 0, 0, 0, 0, 0]).getD 6 0) >>> 4 = 7 ∧
    ((packUuidV7 5 3 [9, 0, 0, 0, 0, 0, 0, 0]).getD 8 0) >>> 6 = 2 ∧
    (((generateV7Web ⟨0, 0⟩ 5 3 [9, 0, 0, 0, 0, 0, 0, 0]).2).getD 6 0) >>> 4 = 7 :=
  ⟨(claim9_version_variant.1 ⟨0, 0⟩ 5 [] 3 [9, 0, 0, 0, 0, 0, 0, 0] ⟨5, 3⟩ []
      (packUuidV7 5 3 [9, 0, 0, 0, 0, 0, 0, 0]) (by decide)).1,
   (claim9_version_variant.1 ⟨0, 0⟩ 5 [] 3 [9, 0, 0, 0, 0, 0, 0, 0] ⟨5, 3⟩ []
      (packUuidV7 5 3 [9, 0, 0, 0, 0, 0, 0, 0]) (by decide)).2,
   (claim9_version_variant.2 ⟨0, 0⟩ 5 3 [9, 0, 0, 0, 0, 0, 0, 0]).1⟩

/-! ## Claim C10 — counter not encoded in the output -/

/-- Claim C10 (confirmed).  Two consecutive same-millisecond calls whose
incremented counter stays strictly below `maxSubMs` return byte-identical
6-byte buffers: the buffer is exactly `_timestampToBuffer` of the (unchanged)
millisecond, so the sub-millisecond counter is internal state only and never
reaches the emitted 48-bit value. -/
theorem claim10_counter_not_encoded (g : TSGen) (m : Nat)
    (hlast : g.lastSystemTime = m) (hcnt : g.subMillisecondCounter + 2 < g.maxSubMs)
    (hmax : m ≤ maxTimestamp) :
    ∃ g1 g2, generate 1 g [m] = some (g1, [], .ok (tsBytes m)) ∧
      generate 1 g1 [m] = some (g2, [], .ok (tsBytes m)) ∧
      g2.lastSystemTime = g.lastSystemTime ∧
      g2.subMillisecondCounter = g.subMillisecondCounter + 2 := by
  subst hlast
  refine ⟨{ g with subMillisecondCounter := g.subMillisecondCounter + 1 },
    { g with subMillisecondCounter := g.subMillisecondCounter + 2 }, ?_, ?_, rfl, rfl⟩
  · have hov : ¬ (g.subMillisecondCounter + 1 ≥ g.maxSubMs) := by omega
    simp [generate, hov, timestampToBuffer_eq_ok _ hmax]
  · have hov : ¬ (g.subMillisecondCounter + 1 + 1 ≥ g.maxSubMs) := by omega
    simp [generate, hov, timestampToBuffer_eq_ok _ hmax]

/-- Claim C10 witness: the theorem at `lastSystemTime = 7`, counter 0,
`maxSubMs = 4096`: both calls return the same buffer `tsBytes 7`. -/
theorem claim10_witness :
    ∃ g1 g2, generate 1 ⟨7, 0, 4096, .increment⟩ [7] = some (g1, [], .ok (tsBytes 7)) ∧
      generate 1 g1 [7] = some (g2, [], .ok (tsBytes 7)) ∧
      g2.lastSystemTime = (⟨7, 0, 4096, .increment⟩ : TSGen).lastSystemTime ∧
      g2.subMillisecondCounter =
        (⟨7, 0, 4096, .increment⟩ : TSGen).subMillisecondCounter + 2 :=
  claim10_counter_not_encoded ⟨7, 0, 4096, .increment⟩ 7 rfl (by decide) (by decide)

/-! ## Claim C5 — Base64URL round-trip: character-level facts -/

theorem base64CodeVal_base64Code : ∀ v < 64, base64CodeVal (base64Code v) = some v := by
  decide

theorem isBase64URLCode_toUrl : ∀ v < 64,
    isBase64URLCode (toUrlCode (base64Code v)) = true := by
  decide

theorem toUrl_base64Code_ne61 : ∀ v < 64, toUrlCode (base64Code v) ≠ 61 := by
  decide

theorem base64Code_ne61 : ∀ v < 64, base64Code v ≠ 61 := by
  decide

theorem fromUrl_toUrl_base64Code : ∀ v < 64,
    fromUrlCode (toUrlCode (base64Code v)) = base64Code v := by
  decide

theorem urlCode_inverse : ∀ c < 123, isBase64URLCode c = true →
    (base64CodeVal (fromUrlCode c)).map (fun v => toUrlCode (base64Code v)) = some c := by
  decide

theorem base64CodeVal_lt (c v : Nat) (h : base64CodeVal c = some v) : v < 64 := by
  simp only [base64CodeVal] at h
  split_ifs at h <;> simp_all <;> omega

theorem isBase64URLCode_lt (c : Nat) (h : isBase64URLCode c = true) : c < 123 := by
  simp only [isBase64URLCode, Bool.or_eq_true, Bool.and_eq_true, decide_eq_true_eq] at h
  omega

theorem isBase64URLCode_ne61 (c : Nat) (h : isBase64URLCode c = true) : c ≠ 61 := by
  simp only [isBase64URLCode, Bool.or_eq_true, Bool.and_eq_true, decide_eq_true_eq] at h
  omega

theorem base64CodeVal_ne61 (c v : Nat) (h : base64CodeVal c = some v) : c ≠ 61 := by
  intro hc
  subst hc
  simp [base64CodeVal] at h

/-! Sextet and byte recombination identities, as plain `/`·`%` arithmetic. -/

theorem sextet2_eq (b0 b1 : Nat) (h1 : b1 < 256) :
    ((b0 &&& 3) <<< 4) ||| (b1 >>> 4) = b0 % 4 * 16 + b1 / 16 := by
  rw [and_mask3, Nat.shiftLeft_eq, Nat.shiftRight_eq_div_pow]
  exact lor_eq_add_pow 4 _ _ ⟨b0 % 4, by ring⟩ (by omega)

theorem sextet3_eq (b1 b2 : Nat) (h2 : b2 < 256) :
    ((b1 &&& 15) <<< 2) ||| (b2 >>> 6) = b1 % 16 * 4 + b2 / 64 := by
  rw [and_mask15, Nat.shiftLeft_eq, Nat.shiftRight_eq_div_pow]
  exact lor_eq_add_pow 2 _ _ ⟨b1 % 16, by ring⟩ (by omega)

theorem dec_byte0 (v1 v2 : Nat) (h2 : v2 < 64) :
    (v1 <<< 2) ||| (v2 >>> 4) = v1 * 4 + v2 / 16 := by
  rw [Nat.shiftLeft_eq, Nat.shiftRight_eq_div_pow]
  exact lor_eq_add_pow 2 _ _ ⟨v1, by ring⟩ (by omega)

theorem dec_byte1 (v2 v3 : Nat) (h3 : v3 < 64) :
    ((v2 &&& 15) <<< 4) ||| (v3 >>> 2) = v2 % 16 * 16 + v3 / 4 := by
  rw [and_mask15, Nat.shiftLeft_eq, Nat.shiftRight_eq_div_pow]
  exact lor_eq_add_pow 4 _ _ ⟨v2 % 16, by ring⟩ (by omega)

theorem dec_byte2 (v3 v4 : Nat) (h4 : v4 < 64) :
    ((v3 &&& 3) <<< 6) ||| v4 = v3 % 4 * 64 + v4 := by
  rw [and_mask3, Nat.shiftLeft_eq]
  exact lor_eq_add_pow 6 _ _ ⟨v3 % 4, by ring⟩ (by omega)

theorem shiftRight2_eq (b : Nat) : b >>> 2 = b / 4 := by
  rw [Nat.shiftRight_eq_div_pow]

theorem and63_eq (b : Nat) : b &&& 63 = b % 64 := and_mask63 b

theorem decodeBase64_four (s1 s2 s3 s4 : Nat) (hs1 : s1 < 64) (hs2 : s2 < 64)
    (hs3 : s3 < 64) (hs4 : s4 < 64) (rest : List Nat) :
    decodeBase64 (base64Code s1 :: base64Code s2 :: base64Code s3 ::
        base64Code s4 :: rest) =
      match decodeBase64 rest with
      | .ok bs => .ok ([(s1 <<< 2) ||| (s2 >>> 4), ((s2 &&& 15) <<< 4) ||| (s3 >>> 2),
                        ((s3 &&& 3) <<< 6) ||| s4] ++ bs)
      | .error e => .error e := by
  simp only [decodeBase64, base64CodeVal_base64Code _ hs1, base64CodeVal_base64Code _ hs2,
    base64CodeVal_base64Code _ hs3, base64CodeVal_base64Code _ hs4]
  rw [if_neg (base64Code_ne61 _ hs3), if_neg (base64Code_ne61 _ hs4)]

theorem encodeBase64_six (b0 b1 b2 b3 b4 b5 : Nat) :
    encodeBase64 [b0, b1, b2, b3, b4, b5] =
      [base64Code (b0 >>> 2), base64Code (((b0 &&& 3) <<< 4) ||| (b1 >>> 4)),
       base64Code (((b1 &&& 15) <<< 2) ||| (b2 >>> 6)), base64Code (b2 &&& 63),
       base64Code (b3 >>> 2), base64Code (((b3 &&& 3) <<< 4) ||| (b4 >>> 4)),
       base64Code (((b4 &&& 15) <<< 2) ||| (b5 >>> 6)), base64Code (b5 &&& 63)] := rfl

theorem encodeBase64URL_six (b0 b1 b2 b3 b4 b5 : Nat) (hs1 : b0 >>> 2 < 64)
    (hs2 : ((b0 &&& 3) <<< 4) ||| (b1 >>> 4) < 64)
    (hs3 : ((b1 &&& 15) <<< 2) ||| (b2 >>> 6) < 64) (hs4 : b2 &&& 63 < 64)
    (hs5 : b3 >>> 2 < 64) (hs6 : ((b3 &&& 3) <<< 4) ||| (b4 >>> 4) < 64)
    (hs7 : ((b4 &&& 15) <<< 2) ||| (b5 >>> 6) < 64) (hs8 : b5 &&& 63 < 64) :
    encodeBase64URL [b0, b1, b2, b3, b4, b5] =
      [toUrlCode (base64Code (b0 >>> 2)),
       toUrlCode (base64Code (((b0 &&& 3) <<< 4) ||| (b1 >>> 4))),
       toUrlCode (base64Code (((b1 &&& 15) <<< 2) ||| (b2 >>> 6))),
       toUrlCode (base64Code (b2 &&& 63)),
       toUrlCode (base64Code (b3 >>> 2)),
       toUrlCode (base64Code (((b3 &&& 3) <<< 4) ||| (b4 >>> 4))),
       toUrlCode (base64Code (((b4 &&& 15) <<< 2) ||| (b5 >>> 6))),
       toUrlCode (base64Code (b5 &&& 63))] := by
  simp only [encodeBase64URL, encodeBase64_six, List.map_cons, List.map_nil]
  simp [List.filter_cons, toUrl_base64Code_ne61 _ hs1, toUrl_base64Code_ne61 _ hs2,
    toUrl_base64Code_ne61 _ hs3, toUrl_base64Code_ne61 _ hs4,
    toUrl_base64Code_ne61 _ hs5, toUrl_base64Code_ne61 _ hs6,
    toUrl_base64Code_ne61 _ hs7, toUrl_base64Code_ne61 _ hs8]

theorem decode_encode_six (b0 b1 b2 b3 b4 b5 : Nat) (h0 : b0 < 256) (h1 : b1 < 256)
    (h2 : b2 < 256) (h3 : b3 < 256) (h4 : b4 < 256) (h5 : b5 < 256) :
    decodeBase64URL (encodeBase64URL [b0, b1, b2, b3, b4, b5]) =
      .ok [b0, b1, b2, b3, b4, b5] := by
  have hs1 : b0 >>> 2 < 64 := by rw [shiftRight2_eq]; omega
  have hs2 : ((b0 &&& 3) <<< 4) ||| (b1 >>> 4) < 64 := by rw [sextet2_eq _ _ h1]; omega
  have hs3 : ((b1 &&& 15) <<< 2) ||| (b2 >>> 6) < 64 := by rw [sextet3_eq _ _ h2]; omega
  have hs4 : b2 &&& 63 < 64 := by rw [and63_eq]; omega
  have hs5 : b3 >>> 2 < 64 := by rw [shiftRight2_eq]; omega
  have hs6 : ((b3 &&& 3) <<< 4) ||| (b4 >>> 4) < 64 := by rw [sextet2_eq _ _ h4]; omega
  have hs7 : ((b4 &&& 15) <<< 2) ||| (b5 >>> 6) < 64 := by rw [sextet3_eq _ _ h5]; omega
  have hs8 : b5 &&& 63 < 64 := by rw [and63_eq]; omega
  have hurl := encodeBase64URL_six b0 b1 b2 b3 b4 b5 hs1 hs2 hs3 hs4 hs5 hs6 hs7 hs8
  rw [hurl]
  have hall : ([toUrlCode (base64Code (b0 >>> 2)),
      toUrlCode (base64Code (((b0 &&& 3) <<< 4) ||| (b1 >>> 4))),
      toUrlCode (base64Code (((b1 &&& 15) <<< 2) ||| (b2 >>> 6))),
      toUrlCode (base64Code (b2 &&& 63)),
      toUrlCode (base64Code (b3 >>> 2)),
      toUrlCode (base64Code (((b3 &&& 3) <<< 4) ||| (b4 >>> 4))),
      toUrlCode (base64Code (((b4 &&& 15) <<< 2) ||| (b5 >>> 6))),
      toUrlCode (base64Code (b5 &&& 63))].all isBase64URLCode) = true := by
    simp [isBase64URLCode_toUrl _ hs1, isBase64URLCode_toUrl _ hs2,
      isBase64URLCode_toUrl _ hs3, isBase64URLCode_toUrl _ hs4,
      isBase64URLCode_toUrl _ hs5, isBase64URLCode_toUrl _ hs6,
      isBase64URLCode_toUrl _ hs7, isBase64URLCode_toUrl _ hs8]
  simp only [decodeBase64URL, List.length_cons, List.length_nil, hall, Bool.not_true,
    Bool.false_eq_true, if_false, if_neg (by omega : ¬ (8 : Nat) = 0)]
  norm_num
  simp only [List.map_cons, List.map_nil, fromUrl_toUrl_base64Code _ hs1,
    fromUrl_toUrl_base64Code _ hs2, fromUrl_toUrl_base64Code _ hs3,
    fromUrl_toUrl_base64Code _ hs4, fromUrl_toUrl_base64Code _ hs5,
    fromUrl_toUrl_base64Code _ hs6, fromUrl_toUrl_base64Code _ hs7,
    fromUrl_toUrl_base64Code _ hs8]
  rw [decodeBase64_four _ _ _ _ hs1 hs2 hs3 hs4, decodeBase64_four _ _ _ _ hs5 hs6 hs7 hs8]
  have hnil : decodeBase64 [] = .ok [] := rfl
  rw [hnil]
  simp only [List.append_nil, List.cons_append, List.nil_append]
  rw [dec_byte0 _ _ hs2, dec_byte1 _ _ hs3, dec_byte2 _ _ hs4,
    dec_byte0 _ _ hs6, dec_byte1 _ _ hs7, dec_byte2 _ _ hs8]
  rw [shiftRight2_eq b0, shiftRight2_eq b3, sextet2_eq _ _ h1, sextet2_eq _ _ h4,
    sextet3_eq _ _ h2, sextet3_eq _ _ h5, and63_eq b2, and63_eq b5]
  have e0 : b0 / 4 * 4 + (b0 % 4 * 16 + b1 / 16) / 16 = b0 := by omega
  have e1 : (b0 % 4 * 16 + b1 / 16) % 16 * 16 + (b1 % 16 * 4 + b2 / 64) / 4 = b1 := by
    omega
  have e2 : (b1 % 16 * 4 + b2 / 64) % 4 * 64 + b2 % 64 = b2 := by omega
  have e3 : b3 / 4 * 4 + (b3 % 4 * 16 + b4 / 16) / 16 = b3 := by omega
  have e4 : (b3 % 4 * 16 + b4 / 16) % 16 * 16 + (b4 % 16 * 4 + b5 / 64) / 4 = b4 := by
    omega
  have e5 : (b4 % 16 * 4 + b5 / 64) % 4 * 64 + b5 % 64 = b5 := by omega
  simp [e0, e1, e2, e3, e4, e5]

set_option maxRecDepth 4096 in
theorem base64Code_of_val_aux : ∀ c < 123, ∀ v < 64,
    base64CodeVal c = some v → base64Code v = c := by
  decide

theorem base64Code_of_val (c v : Nat) (h : base64CodeVal c = some v) :
    base64Code v = c := by
  have hlt : c < 123 := by
    by_contra hc
    push_neg at hc
    simp only [base64CodeVal] at h
    split_ifs at h <;> omega
  exact base64Code_of_val_aux c hlt v (base64CodeVal_lt _ _ h) h

theorem encode_decode_eight (c1 c2 c3 c4 c5 c6 c7 c8 : Nat)
    (h1 : isBase64URLCode c1 = true) (h2 : isBase64URLCode c2 = true)
    (h3 : isBase64URLCode c3 = true) (h4 : isBase64URLCode c4 = true)
    (h5 : isBase64URLCode c5 = true) (h6 : isBase64URLCode c6 = true)
    (h7 : isBase64URLCode c7 = true) (h8 : isBase64URLCode c8 = true) :
    (decodeBase64URL [c1, c2, c3, c4, c5, c6, c7, c8]).map encodeBase64URL =
      .ok [c1, c2, c3, c4, c5, c6, c7, c8] := by
  obtain ⟨v1, hval1, hcode1⟩ :=
    Option.map_eq_some'.mp (urlCode_inverse c1 (isBase64URLCode_lt _ h1) h1)
  obtain ⟨v2, hval2, hcode2⟩ :=
    Option.map_eq_some'.mp (urlCode_inverse c2 (isBase64URLCode_lt _ h2) h2)
  obtain ⟨v3, hval3, hcode3⟩ :=
    Option.map_eq_some'.mp (urlCode_inverse c3 (isBase64URLCode_lt _ h3) h3)
  obtain ⟨v4, hval4, hcode4⟩ :=
    Option.map_eq_some'.mp (urlCode_inverse c4 (isBase64URLCode_lt _ h4) h4)
  obtain ⟨v5, hval5, hcode5⟩ :=
    Option.map_eq_some'.mp (urlCode_inverse c5 (isBase64URLCode_lt _ h5) h5)
  obtain ⟨v6, hval6, hcode6⟩ :=
    Option.map_eq_some'.mp (urlCode_inverse c6 (isBase64URLCode_lt _ h6) h6)
  obtain ⟨v7, hval7, hcode7⟩ :=
    Option.map_eq_some'.mp (urlCode_inverse c7 (isBase64URLCode_lt _ h7) h7)
  obtain ⟨v8, hval8, hcode8⟩ :=
    Option.map_eq_some'.mp (urlCode_inverse c8 (isBase64URLCode_lt _ h8) h8)
  have hv1 : v1 < 64 := base64CodeVal_lt _ _ hval1
  have hv2 : v2 < 64 := base64CodeVal_lt _ _ hval2
  have hv3 : v3 < 64 := base64CodeVal_lt _ _ hval3
  have hv4 : v4 < 64 := base64CodeVal_lt _ _ hval4
  have hv5 : v5 < 64 := base64CodeVal_lt _ _ hval5
  have hv6 : v6 < 64 := base64CodeVal_lt _ _ hval6
  have hv7 : v7 < 64 := base64CodeVal_lt _ _ hval7
  have hv8 : v8 < 64 := base64CodeVal_lt _ _ hval8
  have hf1 : fromUrlCode c1 = base64Code v1 := (base64Code_of_val _ _ hval1).symm
  have hf2 : fromUrlCode c2 = base64Code v2 := (base64Code_of_val _ _ hval2).symm
  have hf3 : fromUrlCode c3 = base64Code v3 := (base64Code_of_val _ _ hval3).symm
  have hf4 : fromUrlCode c4 = base64Code v4 := (base64Code_of_val _ _ hval4).symm
  have hf5 : fromUrlCode c5 = base64Code v5 := (base64Code_of_val _ _ hval5).symm
  have hf6 : fromUrlCode c6 = base64Code v6 := (base64Code_of_val _ _ hval6).symm
  have hf7 : fromUrlCode c7 = base64Code v7 := (base64Code_of_val _ _ hval7).symm
  have hf8 : fromUrlCode c8 = base64Code v8 := (base64Code_of_val _ _ hval8).symm
  have hall : ([c1, c2, c3, c4, c5, c6, c7, c8].all isBase64URLCode) = true := by
    simp [h1, h2, h3, h4, h5, h6, h7, h8]
  simp only [decodeBase64URL, List.length_cons, List.length_nil, hall, Bool.not_true,
    Bool.false_eq_true, if_false, if_neg (by omega : ¬ (8 : Nat) = 0)]
  norm_num
  simp only [List.map_cons, List.map_nil, hf1, hf2, hf3, hf4, hf5, hf6, hf7, hf8]
  rw [decodeBase64_four _ _ _ _ hv1 hv2 hv3 hv4, decodeBase64_four _ _ _ _ hv5 hv6 hv7 hv8]
  have hnil : decodeBase64 [] = .ok [] := rfl
  rw [hnil]
  simp only [List.append_nil, List.cons_append, List.nil_append]
  rw [dec_byte0 _ _ hv2, dec_byte1 _ _ hv3, dec_byte2 _ _ hv4,
    dec_byte0 _ _ hv6, dec_byte1 _ _ hv7, dec_byte2 _ _ hv8]
  have hB0 : v1 * 4 + v2 / 16 < 256 := by omega
  have hB1 : v2 % 16 * 16 + v3 / 4 < 256 := by omega
  have hB2 : v3 % 4 * 64 + v4 < 256 := by omega
  have hB3 : v5 * 4 + v6 / 16 < 256 := by omega
  have hB4 : v6 % 16 * 16 + v7 / 4 < 256 := by omega
  have hB5 : v7 % 4 * 64 + v8 < 256 := by omega
  have hs1 : (v1 * 4 + v2 / 16) >>> 2 < 64 := by rw [shiftRight2_eq]; omega
  have hs2 : (((v1 * 4 + v2 / 16) &&& 3) <<< 4) |||
      ((v2 % 16 * 16 + v3 / 4) >>> 4) < 64 := by rw [sextet2_eq _ _ hB1]; omega
  have hs3 : (((v2 % 16 * 16 + v3 / 4) &&& 15) <<< 2) |||
      ((v3 % 4 * 64 + v4) >>> 6) < 64 := by rw [sextet3_eq _ _ hB2]; omega
  have hs4 : (v3 % 4 * 64 + v4) &&& 63 < 64 := by rw [and63_eq]; omega
  have hs5 : (v5 * 4 + v6 / 16) >>> 2 < 64 := by rw [shiftRight2_eq]; omega
  have hs6 : (((v5 * 4 + v6 / 16) &&& 3) <<< 4) |||
      ((v6 % 16 * 16 + v7 / 4) >>> 4) < 64 := by rw [sextet2_eq _ _ hB4]; omega
  have hs7 : (((v6 % 16 * 16 + v7 / 4) &&& 15) <<< 2) |||
      ((v7 % 4 * 64 + v8) >>> 6) < 64 := by rw [sextet3_eq _ _ hB5]; omega
  have hs8 : (v7 % 4 * 64 + v8) &&& 63 < 64 := by rw [and63_eq]; omega
  have henc := encodeBase64URL_six _ _ _ _ _ _ hs1 hs2 hs3 hs4 hs5 hs6 hs7 hs8
  simp only [Except.map, henc]
  have e1 : (v1 * 4 + v2 / 16) >>> 2 = v1 := by rw [shiftRight2_eq]; omega
  have e2 : (((v1 * 4 + v2 / 16) &&& 3) <<< 4) |||
      ((v2 % 16 * 16 + v3 / 4) >>> 4) = v2 := by rw [sextet2_eq _ _ hB1]; omega
  have e3 : (((v2 % 16 * 16 + v3 / 4) &&& 15) <<< 2) |||
      ((v3 % 4 * 64 + v4) >>> 6) = v3 := by rw [sextet3_eq _ _ hB2]; omega
  have e4 : (v3 % 4 * 64 + v4) &&& 63 = v4 := by rw [and63_eq]; omega
  have e5 : (v5 * 4 + v6 / 16) >>> 2 = v5 := by rw [shiftRight2_eq]; omega
  have e6 : (((v5 * 4 + v6 / 16) &&& 3) <<< 4) |||
      ((v6 % 16 * 16 + v7 / 4) >>> 4) = v6 := by rw [sextet2_eq _ _ hB4]; omega
  have e7 : (((v6 % 16 * 16 + v7 / 4) &&& 15) <<< 2) |||
      ((v7 % 4 * 64 + v8) >>> 6) = v7 := by rw [sextet3_eq _ _ hB5]; omega
  have e8 : (v7 % 4 * 64 + v8) &&& 63 = v8 := by rw [and63_eq]; omega
  rw [e1, e2, e3, e4, e5, e6, e7, e8, hcode1, hcode2, hcode3, hcode4, hcode5,
    hcode6, hcode7, hcode8]

/-- Claim C5 (confirmed).  For every 6-byte buffer,
`decodeBase64URL (encodeBase64URL bytes) = bytes`; and for every valid
Base64URL text of the expected fixed length (8 characters over the
`[A-Za-z0-9_-]` alphabet — the padding-free canonical form),
`encodeBase64URL (decodeBase64URL text) = text`. -/
theorem claim5_roundtrip :
    (∀ bytes : List Nat, bytes.length = 6 → (∀ b ∈ bytes, b < 256) →
       decodeBase64URL (encodeBase64URL bytes) = .ok bytes) ∧
    (∀ str : List Nat, str.length = 8 → str.all isBase64URLCode = true →
       (decodeBase64URL str).map encodeBase64URL = .ok str) := by
  constructor
  · intro bytes hlen hb
    match bytes, hlen with
    | [b0, b1, b2, b3, b4, b5], _ =>
      exact decode_encode_six b0 b1 b2 b3 b4 b5 (hb _ (by simp)) (hb _ (by simp))
        (hb _ (by simp)) (hb _ (by simp)) (hb _ (by simp)) (hb _ (by simp))
  · intro str hlen hall
    match str, hlen with
    | [c1, c2, c3, c4, c5, c6, c7, c8], _ =>
      simp only [List.all_cons, List.all_nil, Bool.and_eq_true, Bool.and_true] at hall
      exact encode_decode_eight c1 c2 c3 c4 c5 c6 c7 c8 hall.1 hall.2.1 hall.2.2.1
        hall.2.2.2.1 hall.2.2.2.2.1 hall.2.2.2.2.2.1 hall.2.2.2.2.2.2.1
        hall.2.2.2.2.2.2.2

/-- Claim C5 witness: the round-trips at bytes `[1,2,3,4,5,6]` and at its
8-character encoding `AQIDBAUG` (codes `[65,81,73,68,66,65,85,71]`). -/
theorem claim5_witness :
    decodeBase64URL (encodeBase64URL [1, 2, 3, 4, 5, 6]) = .ok [1, 2, 3, 4, 5, 6] ∧
    (decodeBase64URL [65, 81, 73, 68, 66, 65, 85, 71]).map encodeBase64URL =
      .ok [65, 81, 73, 68, 66, 65, 85, 71] :=
  ⟨claim5_roundtrip.1 [1, 2, 3, 4, 5, 6] rfl (by decide),
   claim5_roundtrip.2 [65, 81, 73, 68, 66, 65, 85, 71] rfl (by decide)⟩

/-! ## Claim C8 — unsupported formats and malformed input -/

theorem isValidTimestamp_decode_ok (s : List Nat)
    (h : isValidTimestampBase64URL s = true) :
    ∃ bs, decodeBase64URL s = .ok bs ∧ bs.length = 6 := by
  unfold isValidTimestampBase64URL at h
  split_ifs at h with h1
  cases hdec : decodeBase64URL s with
  | ok bs =>
    rw [hdec] at h
    exact ⟨bs, rfl, by simpa using h⟩
  | error e => rw [hdec] at h; simp at h

theorem base64URLToTimestamp_of_valid (s : List Nat) (bs : List Nat)
    (hv : isValidTimestampBase64URL s = true) (hdec : decodeBase64URL s = .ok bs) :
    base64URLToTimestamp s = .ok bs := by
  unfold base64URLToTimestamp
  rw [hv]
  simpa using hdec

theorem validate_str_base64url (s : List Nat) :
    validate (.str s) "base64url" = isValidTimestampBase64URL s := rfl

theorem all_false_of_bad_mem (codes : List Nat) (c0 : Nat) (hmem : c0 ∈ codes)
    (hbad : isBase64URLCode c0 = false) :
    codes.all isBase64URLCode = false := by
  rw [Bool.eq_false_iff]
  intro hall
  rw [List.all_eq_true] at hall
  rw [hall c0 hmem] at hbad
  simp at hbad

theorem isValidBase64URL_false_of_bad_mem (codes : List Nat) (c0 : Nat)
    (hmem : c0 ∈ codes) (hbad : isBase64URLCode c0 = false) :
    isValidBase64URL codes = false := by
  have hne : codes.length ≠ 0 := by
    cases codes with
    | nil => simp at hmem
    | cons a l => simp
  unfold isValidBase64URL
  rw [if_neg hne, all_false_of_bad_mem codes c0 hmem hbad]
  simp

/-- Claim C8 (amended).  An unknown format token (outside
`{"base64url", "hex", "buffer"}`) makes `formatOutput` — and hence
`generate` — fail with the unsupported-format error, makes `convert` fail
(with the invalid-timestamp error when it is the source format, since
validation of an unknown format yields `false`, and with the
unsupported-format error when it is the target format), but makes `validate`
return the boolean `false`: `validate`'s own unknown-format throw is caught
by its surrounding `try`/`catch` and converted to `false`, so `validate`
never fails.  Malformed input with a known format also yields `false` from
`validate` (here: any Base64URL candidate containing `+`, `/` or `=`). -/
theorem claim8_unsupported_format_amended :
    (∀ (b : List Nat) (fmt : String), fmt ≠ "buffer" → fmt ≠ "hex" →
       fmt ≠ "base64url" → formatOutput b fmt = .error "Unsupported format") ∧
    (∀ (t : JSVal) (fmt : String), fmt ≠ "base64url" → fmt ≠ "hex" → fmt ≠ "buffer" →
       validateSwitch t fmt = .error "Invalid format" ∧ validate t fmt = false) ∧
    (∀ (t : JSVal) (fromF toF : String), fromF ≠ "base64url" → fromF ≠ "hex" →
       fromF ≠ "buffer" → convert t fromF toF = .error "Invalid timestamp for format") ∧
    (∀ (t : JSVal) (fromF toF : String), validate t fromF = true →
       toF ≠ "buffer" → toF ≠ "hex" → toF ≠ "base64url" →
       convert t fromF toF = .error "Unsupported format") ∧
    (∀ codes : List Nat, 43 ∈ codes ∨ 47 ∈ codes ∨ 61 ∈ codes →
       validate (.str codes) "base64url" = false) := by
  have hfmt : ∀ (b : List Nat) (fmt : String), fmt ≠ "buffer" → fmt ≠ "hex" →
      fmt ≠ "base64url" → formatOutput b fmt = .error "Unsupported format" := by
    intro b fmt h1 h2 h3
    unfold formatOutput
    split <;> simp_all
  have hval : ∀ (t : JSVal) (fmt : String), fmt ≠ "base64url" → fmt ≠ "hex" →
      fmt ≠ "buffer" →
      validateSwitch t fmt = .error "Invalid format" ∧ validate t fmt = false := by
    intro t fmt h1 h2 h3
    have hsw : validateSwitch t fmt = .error "Invalid format" := by
      unfold validateSwitch
      split <;> simp_all
    refine ⟨hsw, ?_⟩
    cases t with
    | nullish => rfl
    | str s => simp [validate, hsw]
    | buf b => simp [validate, hsw]
  refine ⟨hfmt, hval, fun t fromF toF h1 h2 h3 => ?_, fun t fromF toF hv h1 h2 h3 => ?_,
    fun codes hmem => ?_⟩
  · have hvf : validate t fromF = false := (hval t fromF h1 h2 h3).2
    unfold convert
    rw [hvf]
    simp
  · by_cases hb : fromF = "buffer"
    · subst hb
      cases t with
      | nullish => simp [validate] at hv
      | str s => simp [validate, validateSwitch] at hv
      | buf b =>
        unfold convert
        rw [hv]
        simpa using hfmt b toF h1 h2 h3
    · by_cases hh : fromF = "hex"
      · subst hh
        cases t with
        | nullish => simp [validate] at hv
        | str s =>
          unfold convert
          rw [hv]
          simpa using hfmt (hexToBytes s) toF h1 h2 h3
        | buf b => simp [validate, validateSwitch] at hv
      · by_cases hb64 : fromF = "base64url"
        · subst hb64
          cases t with
          | nullish => simp [validate] at hv
          | buf b => simp [validate, validateSwitch] at hv
          | str s =>
            have hvs : isValidTimestampBase64URL s = true := by
              rw [validate_str_base64url] at hv
              exact hv
            obtain ⟨bs, hdec, _⟩ := isValidTimestamp_decode_ok s hvs
            unfold convert
            rw [hv]
            simp only [Bool.not_true, Bool.false_eq_true, if_false]
            rw [base64URLToTimestamp_of_valid s bs hvs hdec]
            simpa using hfmt bs toF h1 h2 h3
        · have hvf : validate t fromF = false := (hval t fromF hb64 hh hb).2
          rw [hvf] at hv
          simp at hv
  · have hbad : ∃ c0, c0 ∈ codes ∧ isBase64URLCode c0 = false := by
      rcases hmem with h | h | h
      · exact ⟨43, h, by decide⟩
      · exact ⟨47, h, by decide⟩
      · exact ⟨61, h, by decide⟩
    obtain ⟨c0, hc0, hbad0⟩ := hbad
    rw [validate_str_base64url]
    unfold isValidTimestampBase64URL
    rw [isValidBase64URL_false_of_bad_mem codes c0 hc0 hbad0]
    simp

/-- Claim C8 counterexample: `AQIDBAUG` (codes `[65,81,73,68,66,65,85,71]`) is
a valid Base64URL timestamp, yet `validate` with the unknown format token
`"bogus"` completes with the boolean `false` — the internal unknown-format
throw of its `switch` is swallowed by `validate`'s `catch` — rather than
failing the call with an `UnsupportedFormat` error. -/
theorem claim8_counterexample :
    validateSwitch (.str [65, 81, 73, 68, 66, 65, 85, 71]) "bogus" =
      .error "Invalid format" ∧
    validate (.str [65, 81, 73, 68, 66, 65, 85, 71]) "bogus" = false ∧
    validate (.str [65, 81, 73, 68, 66, 65, 85, 71]) "base64url" = true := by
  refine ⟨rfl, rfl, by decide⟩

/-- Claim C8 witness: the amended theorem at the format token `"bogus"`, the
buffer `[1,2,3,4,5,6]`, a hex-format conversion source, and a string
containing `+` (code 43). -/
theorem claim8_witness :
    formatOutput [1, 2, 3, 4, 5, 6] "bogus" = .error "Unsupported format" ∧
    validate (.str [48, 49, 48, 50, 48, 51, 48, 52, 48, 53]) "bogus" = false ∧
    convert (.buf [1, 2, 3, 4, 5, 6]) "bogus" "hex" =
      .error "Invalid timestamp for format" ∧
    validate (.buf [1, 2, 3, 4, 5, 6]) "buffer" = true ∧
    convert (.buf [1, 2, 3, 4, 5, 6]) "buffer" "bogus" = .error "Unsupported format" ∧
    validate (.str [43, 43, 43, 43, 43, 43, 43, 43]) "base64url" = false :=
  ⟨claim8_unsupported_format_amended.1 [1, 2, 3, 4, 5, 6] "bogus"
     (by decide) (by decide) (by decide),
   (claim8_unsupported_format_amended.2.1 (.str [48, 49, 48, 50, 48, 51, 48, 52, 48, 53])
     "bogus" (by decide) (by decide) (by decide)).2,
   claim8_unsupported_format_amended.2.2.1 (.buf [1, 2, 3, 4, 5, 6]) "bogus" "hex"
     (by decide) (by decide) (by decide),
   by decide,
   claim8_unsupported_format_amended.2.2.2.1 (.buf [1, 2, 3, 4, 5, 6]) "buffer" "bogus"
     (by decide) (by decide) (by decide) (by decide),
   claim8_unsupported_format_amended.2.2.2.2 [43, 43, 43, 43, 43, 43, 43, 43]
     (Or.inl (by decide))⟩

end UUID48
